import Mathlib

/-!
Verification of the quiz-solver engine (task classification, asset
resolution, PDF/CSV aggregation, balanced-JSON extraction, and the
submission fallback chain).  The definitions below are a shallow
embedding of the JavaScript source files `analyzeQuiz.js`,
`utils/pdf.js`, `utils/fetcher.js` and the solver orchestrator.
Strings are modelled as lists of characters; JavaScript numbers are
modelled as rationals; the network is modelled as a list of responses
consumed in request order.
-/

namespace Quiz

/-! ## Character and string helpers -/

/-- ASCII lower-casing, as performed by JavaScript `toLowerCase` on the
ASCII fragment used by the source's regular expressions. -/
def asciiLower (c : Char) : Char :=
  if 'A' ≤ c && c ≤ 'Z' then Char.ofNat (c.toNat + 32) else c

def lowerL (l : List Char) : List Char := l.map asciiLower

/-- JavaScript `\s` (ASCII fragment): space, tab, newline, carriage
return, form feed, vertical tab. -/
def isWsChar (c : Char) : Bool :=
  c == ' ' || c == '\t' || c == '\n' || c == '\r' || c == '\x0c' || c == '\x0b'

def isDigitChar (c : Char) : Bool := '0' ≤ c && c ≤ '9'

/-- Word character for the `\b` boundary: `[A-Za-z0-9_]`. -/
def isWordChar (c : Char) : Bool :=
  ('a' ≤ c && c ≤ 'z') || ('A' ≤ c && c ≤ 'Z') || ('0' ≤ c && c ≤ '9') || c == '_'

/-- Does the list start with the given pattern? -/
def startsWithL : List Char → List Char → Bool
  | _, [] => true
  | [], _ :: _ => false
  | c :: cs, p :: ps => c == p && startsWithL cs ps

/-- Does the list contain the pattern as a contiguous sub-list? -/
def containsSubL (pat : List Char) : List Char → Bool
  | [] => startsWithL [] pat
  | c :: rest => startsWithL (c :: rest) pat || containsSubL pat rest

def endsWithL (l pat : List Char) : Bool := startsWithL l.reverse pat.reverse

/-- Case-insensitive substring test, modelling `/pat/i.test(text)` for
patterns that are plain literals. -/
def textHas (text pat : String) : Bool :=
  containsSubL (lowerL pat.data) (lowerL text.data)

/-- Case-insensitive `.endsWith`, modelling `/\.ext$/i.test(url)` and
`url.toLowerCase().endsWith(ext)`. -/
def endsWithCI (s pat : String) : Bool :=
  endsWithL (lowerL s.data) (lowerL pat.data)

def trimL (l : List Char) : List Char :=
  ((l.dropWhile isWsChar).reverse.dropWhile isWsChar).reverse

/-- `split` on a single character, keeping empty pieces (JavaScript
`String.prototype.split` semantics). -/
def splitOnCharL (sep : Char) : List Char → List (List Char)
  | [] => [[]]
  | c :: rest =>
    let r := splitOnCharL sep rest
    if c == sep then [] :: r
    else
      match r with
      | [] => [[c]]
      | h :: t => (c :: h) :: t

/-! ## JavaScript values -/

/-- A JSON/JavaScript value.  JavaScript numbers are modelled as
rationals (`NaN` never appears as a stored value in the modelled code
paths; the places where `NaN` can arise are modelled with `Option`). -/
inductive JsValue where
  | null
  | bool (b : Bool)
  | num (q : ℚ)
  | str (s : String)
  | arr (elems : List JsValue)
  | obj (fields : List (String × JsValue))

/-- JavaScript truthiness of a value. -/
def jsTruthy : JsValue → Bool
  | .null => false
  | .bool b => b
  | .num q => !(q == 0)
  | .str s => !s.data.isEmpty
  | .arr _ => true
  | .obj _ => true

/-- Truthiness filter for an optional string: `undefined`/`null` and the
empty string are falsy. -/
def strTruthy : Option String → Option String
  | none => none
  | some s => if s.data.isEmpty then none else some s

/-- Model of `a || b` on optional strings (first truthy wins). -/
def jsOrStr (a b : Option String) : Option String :=
  match strTruthy a with
  | some s => some s
  | none => b

def jsTruthyOpt : Option JsValue → Bool
  | none => false
  | some v => jsTruthy v

/-! ## Task description and classifier (`analyzeQuiz.js`) -/

/-- The optional structured task description parsed from the page. -/
structure ParsedTask where
  task : Option String := none
  type : Option String := none
  url : Option String := none
  page : Option Int := none
  column : Option String := none
  field : Option String := none
  answer : Option JsValue := none
  makeChart : Option JsValue := none
  data : Option JsValue := none

/-- `parsed?.url` with truthiness (empty string is falsy). -/
def truthyUrl (op : Option ParsedTask) : Option String :=
  match op with
  | none => none
  | some p => strTruthy p.url

/-- Scan for an occurrence of `audio` at a `\b`-boundary on both sides;
the scan list must already be lower-cased.  `prev` is the character
preceding the current position. -/
def hasWordAudioGo (prev : Option Char) : List Char → Bool
  | [] => false
  | c :: rest =>
    (startsWithL (c :: rest) ("audio".data)
      && (match prev with | none => true | some p => !isWordChar p)
      && (match (c :: rest).drop 5 with | [] => true | d :: _ => !isWordChar d))
    || hasWordAudioGo (some c) rest

/-- Model of `/\baudio\b|demo-audio/i.test(u)`. -/
def urlAudioPattern (u : String) : Bool :=
  let l := lowerL u.data
  hasWordAudioGo none l || containsSubL ("demo-audio".data) l

/-- Model of `inferTaskFromText` in `analyzeQuiz.js`. -/
def inferTaskFromText (text : String) : Option String :=
  if textHas text "pdf" && textHas text "page" then some "pdf-sum"
  else if textHas text "csv" || textHas text "column" then some "csv-sum"
  else if textHas text "image" || textHas text "ocr" then some "image-ocr"
  else if textHas text "plot" || textHas text "chart" then some "chart"
  else if textHas text "audio" || textHas text "transcribe" then some "audio-transcribe"
  else none

/-- The `task` variable of `analyzeQuiz`:
`parsed?.task || parsed?.type || inferTaskFromText(pageText)`. -/
def effTask (op : Option ParsedTask) (text : String) : Option String :=
  match op with
  | none => inferTaskFromText text
  | some p =>
    match strTruthy p.task with
    | some s => some s
    | none =>
      match strTruthy p.type with
      | some s => some s
      | none => inferTaskFromText text

/-- Model of `looksLikePdfTask` in `analyzeQuiz.js`. -/
def looksLikePdfTask (op : Option ParsedTask) (text : String) : Bool :=
  if (match truthyUrl op with | some u => urlAudioPattern u | none => false) then false
  else
    match op with
    | none => textHas text "pdf" && !(textHas text "audio")
    | some p =>
      (match strTruthy p.url with
       | some u => endsWithL (lowerL u.data) (".pdf".data)
       | none => false)
      || textHas text "pdf"

/-- Model of `looksLikeCsvTask` in `analyzeQuiz.js`. -/
def looksLikeCsvTask (op : Option ParsedTask) (text : String) : Bool :=
  if (match truthyUrl op with | some u => urlAudioPattern u | none => false) then false
  else
    match op with
    | none => textHas text "csv" || textHas text "comma separated"
    | some p =>
      (match strTruthy p.url with
       | some u => endsWithL (lowerL u.data) (".csv".data)
       | none => false)
      || textHas text "csv" || textHas text "comma separated"

/-- Model of `looksLikeImageTask` in `analyzeQuiz.js`. -/
def looksLikeImageTask (op : Option ParsedTask) (text : String) : Bool :=
  match op with
  | none => textHas text "image" || textHas text "photo" || textHas text "scan"
  | some p =>
    (match strTruthy p.url with
     | some u =>
       endsWithCI u ".png" || endsWithCI u ".jpg" || endsWithCI u ".jpeg"
         || endsWithCI u ".bmp" || endsWithCI u ".tiff"
     | none => false)
    || textHas text "image" || textHas text "photo" || textHas text "scan"

def textAudioKeywords (text : String) : Bool :=
  textHas text "audio" || textHas text "mp3" || textHas text "wav"
    || textHas text "transcribe" || textHas text "opus"

/-- Model of `looksLikeAudioTask` in `analyzeQuiz.js`. -/
def looksLikeAudioTask (op : Option ParsedTask) (text : String) : Bool :=
  match op with
  | none => textAudioKeywords text
  | some p =>
    let hasAudioExtension :=
      match strTruthy p.url with
      | some u =>
        endsWithCI u ".mp3" || endsWithCI u ".wav" || endsWithCI u ".m4a"
          || endsWithCI u ".ogg" || endsWithCI u ".opus" || endsWithCI u ".m4b"
          || endsWithCI u ".flac"
      | none => false
    let hasAudioKeyword :=
      match strTruthy p.url with
      | some u => urlAudioPattern u
      | none => false
    hasAudioExtension || hasAudioKeyword || textAudioKeywords text

/-- The closed set of branches of `analyzeQuiz`. -/
inductive TaskKind where
  | pdfSum | csvSum | audioTranscribe | imageOcr | chart | passthrough | numericFallback
deriving DecidableEq

/-- The branch `analyzeQuiz` dispatches to: its `if` chain, evaluated in
source order (guards 1-6, else the numeric fallback). -/
def classifyTask (op : Option ParsedTask) (text : String) : TaskKind :=
  let tk := effTask op text
  if looksLikePdfTask op text || tk == some "pdf-sum" then .pdfSum
  else if looksLikeCsvTask op text || tk == some "csv-sum" then .csvSum
  else if looksLikeAudioTask op text || tk == some "audio-transcribe" then .audioTranscribe
  else if looksLikeImageTask op text || tk == some "image-ocr" then .imageOcr
  else if (match op with | some p => jsTruthyOpt p.makeChart | none => false)
            || tk == some "chart" then .chart
  else if (match op with | some p => p.answer.isSome | none => false) then .passthrough
  else .numericFallback

/-! ## `extractFirstFileUrl` and the numeric fallback -/

def isUrlStopChar (c : Char) : Bool := isWsChar c || c == '\'' || c == '"'

/-- Scan for the first match of `/https?:\/\/[^\s'"]+/`. -/
def extractFirstFileUrlGo : List Char → Option String
  | [] => none
  | c :: rest =>
    if startsWithL (c :: rest) ("https://".data) then
      let run := ((c :: rest).drop 8).takeWhile (fun d => !isUrlStopChar d)
      if run.isEmpty then extractFirstFileUrlGo rest
      else some ⟨"https://".data ++ run⟩
    else if startsWithL (c :: rest) ("http://".data) then
      let run := ((c :: rest).drop 7).takeWhile (fun d => !isUrlStopChar d)
      if run.isEmpty then extractFirstFileUrlGo rest
      else some ⟨"http://".data ++ run⟩
    else extractFirstFileUrlGo rest

/-- Model of `extractFirstFileUrl(text, baseUrl)` in `analyzeQuiz.js`:
the `baseUrl` argument is accepted but never used, exactly as in the
source. -/
def extractFirstFileUrl (text : String) (baseUrl : String) : Option String :=
  extractFirstFileUrlGo text.data

/-- Match the number pattern `-?\d+(\.\d+)?` anchored at the head of the
list, returning the matched characters and the remainder after the match. -/
def numTokenAt (l : List Char) : Option (List Char × List Char) :=
  let core := fun (l2 : List Char) =>
    let ds := l2.takeWhile isDigitChar
    if ds.isEmpty then none
    else
      let r1 := l2.drop ds.length
      match r1 with
      | '.' :: r2 =>
        let fs := r2.takeWhile isDigitChar
        if fs.isEmpty then some (ds, r1)
        else some (ds ++ '.' :: fs, r2.drop fs.length)
      | _ => some (ds, r1)
  match l with
  | '-' :: r => (core r).map (fun m => ('-' :: m.1, m.2))
  | _ => core l

/-- First match of the number pattern in the text (non-global `match`). -/
def firstNumMatchGo : List Char → Option (List Char)
  | [] => none
  | c :: rest =>
    match numTokenAt (c :: rest) with
    | some m => some m.1
    | none => firstNumMatchGo rest

def firstNumMatch (text : String) : Option String :=
  (firstNumMatchGo text.data).map (fun l => ⟨l⟩)

/-- All matches of the number pattern (global flag), resuming after each
match. -/
def allNumMatchesGo : Nat → List Char → List (List Char)
  | 0, _ => []
  | _ + 1, [] => []
  | f + 1, c :: rest =>
    match numTokenAt (c :: rest) with
    | some m => m.1 :: allNumMatchesGo f m.2
    | none => allNumMatchesGo f rest

def allNumMatches (l : List Char) : List (List Char) :=
  allNumMatchesGo l.length l

/-! ## The first step of each `analyzeQuiz` branch -/

/-- The decision `analyzeQuiz` reaches before performing any I/O:
either an error is thrown, a file download is initiated, a chart is
rendered, or an answer is produced directly. -/
inductive EngineRoute where
  | fail (msg : String)
  | fetch (kind : TaskKind) (fileUrl : String)
  | chartMake
  | pass (v : JsValue)
  | numAnswer (ans : Option String)

/-- `parsed?.url || extractFirstFileUrl(pageText, baseUrl)`. -/
def fileUrlFor (op : Option ParsedTask) (text baseUrl : String) : Option String :=
  match truthyUrl op with
  | some u => some u
  | none => extractFirstFileUrl text baseUrl

/-- The branch selection and first action of `analyzeQuiz`. -/
def analyzeRoute (op : Option ParsedTask) (text baseUrl : String) : EngineRoute :=
  match classifyTask op text with
  | .pdfSum =>
    match fileUrlFor op text baseUrl with
    | none => .fail "No file URL for PDF task"
    | some u => .fetch .pdfSum u
  | .csvSum =>
    match fileUrlFor op text baseUrl with
    | none => .fail "No file URL for CSV task"
    | some u => .fetch .csvSum u
  | .audioTranscribe =>
    match fileUrlFor op text baseUrl with
    | none => .fail "No file URL for Audio task"
    | some u => .fetch .audioTranscribe u
  | .imageOcr =>
    match fileUrlFor op text baseUrl with
    | none => .fail "No file URL for Image task"
    | some u => .fetch .imageOcr u
  | .chart =>
    if (match op with | some p => jsTruthyOpt p.data | none => false) then .chartMake
    else .fail "No data for chart task"
  | .passthrough =>
    .pass (match op with | some p => p.answer.getD .null | none => .null)
  | .numericFallback => .numAnswer (firstNumMatch text)

/-! ## JavaScript `Number(...)` coercion -/

def digitsValNat (l : List Char) : Nat :=
  l.foldl (fun a c => a * 10 + (c.toNat - 48)) 0

def digitsVal (l : List Char) : ℚ := (digitsValNat l : ℚ)

/-- Exponent tail of a JavaScript number literal: empty, or
`(e|E)(+|-)?digits`. -/
def jsExpTail (sign : ℚ) (mant : ℚ) (rest : List Char) : Option ℚ :=
  match rest with
  | [] => some (sign * mant)
  | e :: r =>
    if e == 'e' || e == 'E' then
      let (epos, r2) :=
        match r with
        | '+' :: rr => (true, rr)
        | '-' :: rr => (false, rr)
        | _ => (true, r)
      let es := r2.takeWhile isDigitChar
      if es.isEmpty || !((r2.drop es.length).isEmpty) then none
      else
        let k := digitsValNat es
        some (if epos then sign * mant * 10 ^ k else sign * mant / 10 ^ k)
    else none

/-- Model of JavaScript `Number(s)` on the decimal fragment: trims
whitespace, maps the empty string to `0`, accepts an optional sign, a
decimal literal (integer part, fraction part, or both) and an optional
exponent; anything else (including the hexadecimal / `Infinity` forms,
which never occur in the modelled call sites) is `NaN`, modelled as
`none`. -/
def jsNumberOfString (s : String) : Option ℚ :=
  let l := trimL s.data
  if l.isEmpty then some 0
  else
    let (sign, l1) :=
      match l with
      | '-' :: r => ((-1 : ℚ), r)
      | '+' :: r => ((1 : ℚ), r)
      | _ => ((1 : ℚ), l)
    let ds := l1.takeWhile isDigitChar
    let r1 := l1.drop ds.length
    match r1 with
    | '.' :: r2 =>
      let fs := r2.takeWhile isDigitChar
      let r3 := r2.drop fs.length
      if ds.isEmpty && fs.isEmpty then none
      else jsExpTail sign (digitsVal ds + digitsVal fs / 10 ^ fs.length) r3
    | _ =>
      if ds.isEmpty then none
      else jsExpTail sign (digitsVal ds) r1

/-! ## `utils/pdf.js`: `sumColumn` -/

/-- Split a line on the delimiter pattern used by `sumColumn`
(a run of two or more whitespace characters, a single tab, or a comma),
keeping empty pieces, as JavaScript `split` does. -/
def splitPdfGo : Nat → List Char → List Char → List (List Char)
  | 0, cur, rest => [cur.reverse ++ rest]
  | _ + 1, cur, [] => [cur.reverse]
  | f + 1, cur, c :: rest =>
    if c == ',' then cur.reverse :: splitPdfGo f [] rest
    else if isWsChar c then
      let run := (c :: rest).takeWhile isWsChar
      if 2 ≤ run.length then cur.reverse :: splitPdfGo f [] ((c :: rest).drop run.length)
      else if c == '\t' then cur.reverse :: splitPdfGo f [] rest
      else splitPdfGo f (c :: cur) rest
    else splitPdfGo f (c :: cur) rest

def splitPdfTokens (l : List Char) : List (List Char) :=
  splitPdfGo (l.length + 1) [] l

/-- Keep only the characters JavaScript retains in
`t.replace` with the class of non-digit, non-dot, non-minus characters
removed. -/
def stripNonNum (l : List Char) : List Char :=
  l.filter (fun c => isDigitChar c || c == '.' || c == '-')

/-- First token of the line whose stripped form is not `NaN` under
`Number(...)` (note that a token with no digit characters at all strips
to the empty string, which `Number` maps to `0`). -/
def firstTokenNum : List (List Char) → Option ℚ
  | [] => none
  | t :: ts =>
    match jsNumberOfString ⟨stripNonNum t⟩ with
    | some q => some q
    | none => firstTokenNum ts

/-- The per-line accumulation loop of `sumColumn`: skip lines with no
digit; otherwise add the first parseable token and set the `found`
flag. -/
def pdfSumLines (lines : List (List Char)) : ℚ × Bool :=
  lines.foldl
    (fun acc ln =>
      if !(ln.any isDigitChar) then acc
      else
        match firstTokenNum (splitPdfTokens ln) with
        | some q => (acc.1 + q, true)
        | none => acc)
    (0, false)

/-- Safe indexing with a JavaScript-style possibly negative index. -/
def jsIndex (l : List String) (i : Int) : Option String :=
  if i < 0 then none else l.get? i.toNat

/-- Model of `sumColumn` in `utils/pdf.js` from the extracted document
text onward (the PDF text extraction itself is an external
collaborator): split the text on form feeds, select
`pages[page-1] || pages[0] || ''`, trim, and run the line loop with the
all-numeric-substrings fallback. -/
def sumColumnText (fullText : String) (page : Int) : ℚ :=
  let pages : List String := (splitOnCharL '\x0c' fullText.data).map (fun l => ⟨l⟩)
  let pageSel : String :=
    match strTruthy (jsIndex pages (page - 1)) with
    | some s => s
    | none =>
      match strTruthy (jsIndex pages 0) with
      | some s => s
      | none => ""
  let pageText := trimL pageSel.data
  let lines := ((splitOnCharL '\n' pageText).map trimL).filter (fun l => !l.isEmpty)
  let r := pdfSumLines lines
  if r.2 then r.1
  else ((allNumMatches pageText).map (fun m => (jsNumberOfString ⟨m⟩).getD 0)).sum

/-- `parsed?.page || 2` (the number `0` is falsy). -/
def requestedPage (op : Option ParsedTask) : Int :=
  match op with
  | none => 2
  | some p =>
    match p.page with
    | none => 2
    | some n => if n = 0 then 2 else n

/-! ## The CSV-sum branch of `analyzeQuiz` -/

/-- `parsed?.column || parsed?.field || 'value'`. -/
def resolveCsvColumn (op : Option ParsedTask) : String :=
  match op with
  | none => "value"
  | some p => (jsOrStr p.column (jsOrStr p.field (some "value"))).getD "value"

/-- Model of `rows.reduce((s, r) => s + (Number(r[col]) || 0), 0)`:
rows are association lists produced by the external CSV parser;
a missing property gives `Number(undefined) = NaN`, and `NaN || 0`
is `0`. -/
def csvSum (rows : List (List (String × String))) (col : String) : ℚ :=
  rows.foldl
    (fun s r =>
      s + (match List.lookup col r with
           | none => 0
           | some v =>
             match jsNumberOfString v with
             | none => 0
             | some q => q))
    0

/-- The specification's description of one record's contribution: the
numeric value of the named column, with missing or non-numeric values
contributing zero. -/
def csvContribution (col : String) (r : List (String × String)) : ℚ :=
  match List.lookup col r with
  | none => 0
  | some v => (jsNumberOfString v).getD 0

/-! ## `extractBalancedJson` (solver orchestrator) -/

/-- Drop the characters before the first `{`; `none` when there is no
`{` (JavaScript `indexOf` returning `-1`). -/
def dropUntilBrace : List Char → Option (List Char)
  | [] => none
  | c :: rest => if c == '{' then some (c :: rest) else dropUntilBrace rest

/-- The scanning loop of `extractBalancedJson`, carrying the depth, the
string-literal flag, the escape flag and the characters consumed so
far. -/
def ebjGo : List Char → Int → Bool → Bool → List Char → Option (List Char)
  | [], _, _, _, _ => none
  | c :: rest, depth, inStr, esc, acc =>
    if inStr then
      if esc then ebjGo rest depth true false (acc ++ [c])
      else if c == '\\' then ebjGo rest depth true true (acc ++ [c])
      else if c == '"' then ebjGo rest depth false false (acc ++ [c])
      else ebjGo rest depth true false (acc ++ [c])
    else if c == '"' then ebjGo rest depth true false (acc ++ [c])
    else if c == '{' then ebjGo rest (depth + 1) false false (acc ++ [c])
    else if c == '}' then
      if depth - 1 = 0 then some (acc ++ [c])
      else ebjGo rest (depth - 1) false false (acc ++ [c])
    else ebjGo rest depth false false (acc ++ [c])

/-- Model of `extractBalancedJson(text)` in the solver orchestrator. -/
def extractBalancedJson (text : String) : Option String :=
  (dropUntilBrace text.data).bind
    (fun sub => (ebjGo sub 0 false false []).map (fun l => (⟨l⟩ : String)))

/-- One step of the string-aware depth scanner, written as a state
machine on `(depth, inString, escape)`; this is the specification-side
formulation of the same transition system. -/
def scanStep (st : Int × Bool × Bool) (c : Char) : Int × Bool × Bool :=
  if st.2.1 then
    if st.2.2 then (st.1, true, false)
    else if c == '\\' then (st.1, true, true)
    else if c == '"' then (st.1, false, false)
    else (st.1, true, false)
  else if c == '"' then (st.1, true, false)
  else if c == '{' then (st.1 + 1, false, false)
  else if c == '}' then (st.1 - 1, false, false)
  else (st.1, false, false)

def scanRun (st : Int × Bool × Bool) (cs : List Char) : Int × Bool × Bool :=
  cs.foldl scanStep st

/-- String-aware brace depth of a character list, starting outside any
string at depth zero. -/
def scanDepth (cs : List Char) : Int := (scanRun (0, false, false) cs).1

/-- Length of the shortest non-empty prefix whose string-aware depth
returns to zero. -/
def balancedCloseLen (sub : List Char) : Option Nat :=
  (List.range (sub.length + 1)).find?
    (fun n => decide (1 ≤ n) && decide (scanDepth (sub.take n) = 0))

/-- Specification-side restatement of `extractBalancedJson`: the
substring from the first `{` to the first position where the
string-aware depth returns to zero. -/
def extractBalancedJsonSpec (text : String) : Option String :=
  (dropUntilBrace text.data).bind
    (fun sub => (balancedCloseLen sub).map (fun n => (⟨sub.take n⟩ : String)))

/-! ### Lemmas relating the extraction loop to the depth scanner -/

theorem scanRun_cons (st : Int × Bool × Bool) (c : Char) (l : List Char) :
    scanRun st (c :: l) = scanRun (scanStep st c) l := rfl

theorem scanRun_nil (st : Int × Bool × Bool) : scanRun st [] = st := rfl

theorem find?_range_shift (p q : Nat → Bool) (m : Nat) (h0 : p 0 = false)
    (hq : ∀ k, q k = p (k + 1)) :
    (List.range (m + 1)).find? p = ((List.range m).find? q).map (· + 1) := by
  rw [List.range_succ_eq_map, List.find?_cons_of_neg _ (by simp [h0]), List.find?_map]
  have hpq : (p ∘ Nat.succ) = q := by funext k; exact (hq k).symm
  rw [hpq]

theorem find?_range_head (q : Nat → Bool) (m : Nat) (h0 : q 0 = true) :
    (List.range (m + 1)).find? q = some 0 := by
  rw [List.range_succ_eq_map]
  exact List.find?_cons_of_pos _ h0

theorem find?_range_min :
    ∀ (m : Nat) (p : Nat → Bool) (n : Nat), (List.range m).find? p = some n →
      p n = true ∧ ∀ k, k < n → p k = false := by
  intro m
  induction m with
  | zero => intro p n h; simp [List.range_zero] at h
  | succ m ih =>
    intro p n h
    rw [List.range_succ_eq_map] at h
    by_cases h0 : p 0 = true
    · rw [List.find?_cons_of_pos _ h0] at h
      cases h
      exact ⟨h0, fun k hk => absurd hk (Nat.not_lt_zero k)⟩
    · have h0' : p 0 = false := by revert h0; cases p 0 <;> simp
      rw [List.find?_cons_of_neg _ (by simp [h0']), List.find?_map] at h
      cases hm : (List.range m).find? (p ∘ Nat.succ) with
      | none => rw [hm] at h; simp at h
      | some n' =>
        rw [hm] at h
        simp only [Option.map_some'] at h
        obtain ⟨hp, hmin⟩ := ih (p ∘ Nat.succ) n' hm
        cases h
        refine ⟨hp, ?_⟩
        intro k hk
        match k with
        | 0 => exact h0'
        | j + 1 => exact hmin j (Nat.lt_of_succ_lt_succ hk)

/-- The depth after one scanner step is zero exactly at a closing brace
processed outside a string at depth one (assuming positive depth). -/
theorem scanStep_depth_zero (d : Int) (inS esc : Bool) (c : Char) (hd : 1 ≤ d) :
    (scanStep (d, inS, esc) c).1 = 0 ↔ (inS = false ∧ c = '}' ∧ d = 1) := by
  cases inS with
  | true =>
    cases esc with
    | true => simp only [scanStep]; simp; omega
    | false =>
      simp only [scanStep]
      by_cases h1 : c = '\\'
      · simp [h1]; omega
      · by_cases h2 : c = '"'
        · simp [h1, h2]; omega
        · simp [h1, h2]; omega
  | false =>
    simp only [scanStep]
    by_cases h2 : c = '"'
    · simp [h2]; omega
    · by_cases h3 : c = '{'
      · simp [h2, h3]; omega
      · by_cases h4 : c = '}'
        · simp [h2, h3, h4]; omega
        · simp [h2, h3, h4]; omega

/-- One scanner step changes the depth by at most one. -/
theorem scanStep_depth_cases (d : Int) (inS esc : Bool) (c : Char) :
    (scanStep (d, inS, esc) c).1 = d ∨ (scanStep (d, inS, esc) c).1 = d + 1
      ∨ (scanStep (d, inS, esc) c).1 = d - 1 := by
  cases inS <;> cases esc <;> simp only [scanStep] <;> split_ifs <;> simp

/-- After one scanner step from positive depth, when the termination
condition does not hold, the depth stays positive. -/
theorem scanStep_depth_pos (d : Int) (inS esc : Bool) (c : Char) (hd : 1 ≤ d)
    (hne : ¬(inS = false ∧ c = '}' ∧ d = 1)) :
    1 ≤ (scanStep (d, inS, esc) c).1 := by
  have hz : ¬((scanStep (d, inS, esc) c).1 = 0) :=
    fun h0 => hne ((scanStep_depth_zero d inS esc c hd).mp h0)
  rcases scanStep_depth_cases d inS esc c with h | h | h <;> omega

/-- Stepping the extraction loop at the termination condition: a closing
brace outside a string at depth one returns the consumed characters. -/
theorem ebjGo_cons_stop (rest : List Char) (d : Int) (esc : Bool)
    (acc : List Char) (hd : d = 1) :
    ebjGo ('}' :: rest) d false esc acc = some (acc ++ ['}']) := by
  subst hd
  simp [ebjGo]

/-- Stepping the extraction loop outside the termination condition: it
recurses with the scanner-stepped state. -/
theorem ebjGo_cons_go (c : Char) (rest : List Char) (d : Int) (inS esc : Bool)
    (acc : List Char) (hne : ¬(inS = false ∧ c = '}' ∧ d = 1)) :
    ebjGo (c :: rest) d inS esc acc =
      ebjGo rest (scanStep (d, inS, esc) c).1 (scanStep (d, inS, esc) c).2.1
        (scanStep (d, inS, esc) c).2.2 (acc ++ [c]) := by
  cases inS with
  | true =>
    cases esc with
    | true => simp [ebjGo, scanStep]
    | false =>
      by_cases h1 : c = '\\'
      · simp [ebjGo, scanStep, h1]
      · by_cases h2 : c = '"'
        · simp [ebjGo, scanStep, h1, h2]
        · simp [ebjGo, scanStep, h1, h2]
  | false =>
    by_cases h2 : c = '"'
    · simp [ebjGo, scanStep, h2]
    · by_cases h3 : c = '{'
      · simp [ebjGo, scanStep, h2, h3]
      · by_cases h4 : c = '}'
        · have hd1 : d ≠ 1 := fun h => hne ⟨rfl, h4, h⟩
          have hdz : ¬(d - 1 = 0) := by omega
          simp [ebjGo, scanStep, h2, h3, h4, hdz]
        · simp [ebjGo, scanStep, h2, h3, h4]

/-- The extraction loop computes the shortest positive prefix on which
the scanner's depth returns to zero, appended to the accumulator. -/
theorem ebjGo_eq_find (cs : List Char) :
    ∀ (d : Int) (inS esc : Bool) (acc : List Char), 1 ≤ d →
      ebjGo cs d inS esc acc =
        ((List.range (cs.length + 1)).find?
            (fun n => decide (1 ≤ n)
              && decide ((scanRun (d, inS, esc) (cs.take n)).1 = 0))).map
          (fun n => acc ++ cs.take n) := by
  induction cs with
  | nil =>
    intro d inS esc acc _
    have h1 : List.range 1 = [0] := rfl
    simp [ebjGo, h1]
  | cons c rest ih =>
    intro d inS esc acc hd
    by_cases hstop : inS = false ∧ c = '}' ∧ d = 1
    · obtain ⟨hS, hc, hd1⟩ := hstop
      subst hS; subst hc
      rw [ebjGo_cons_stop rest d esc acc hd1]
      rw [List.length_cons,
        find?_range_shift
          (fun n => decide (1 ≤ n)
            && decide ((scanRun (d, false, esc) (List.take n ('}' :: rest))).1 = 0))
          (fun k => decide (1 ≤ k + 1)
            && decide ((scanRun (d, false, esc) (List.take (k + 1) ('}' :: rest))).1 = 0))
          _ (by simp) (fun k => rfl)]
      have hq0 : (decide (1 ≤ 0 + 1)
          && decide ((scanRun (d, false, esc) (List.take (0 + 1) ('}' :: rest))).1 = 0))
          = true := by
        have hz : (scanStep (d, false, esc) '}').1 = 0 := by
          rw [scanStep_depth_zero d false esc '}' hd]
          exact ⟨rfl, rfl, hd1⟩
        simp only [List.take_succ_cons, List.take_zero, scanRun_cons, scanRun_nil]
        simp [hz]
      rw [find?_range_head _ _ hq0]
      simp
    · have hd' : 1 ≤ (scanStep (d, inS, esc) c).1 := scanStep_depth_pos d inS esc c hd hstop
      rw [ebjGo_cons_go c rest d inS esc acc hstop]
      have ih' := ih (scanStep (d, inS, esc) c).1 (scanStep (d, inS, esc) c).2.1
        (scanStep (d, inS, esc) c).2.2 (acc ++ [c]) hd'
      rw [ih']
      have hpoint : ∀ k, (decide (1 ≤ k)
            && decide ((scanRun ((scanStep (d, inS, esc) c).1, (scanStep (d, inS, esc) c).2.1,
                (scanStep (d, inS, esc) c).2.2) (List.take k rest)).1 = 0))
          = (decide (1 ≤ k + 1)
            && decide ((scanRun (d, inS, esc) (List.take (k + 1) (c :: rest))).1 = 0)) := by
        intro k
        cases k with
        | zero =>
          have hz : ¬((scanStep (d, inS, esc) c).1 = 0) :=
            fun h0 => hstop ((scanStep_depth_zero d inS esc c hd).mp h0)
          simp only [List.take_succ_cons, List.take_zero, scanRun_cons, scanRun_nil]
          simp [hz]
        | succ j =>
          simp only [List.take_succ_cons, scanRun_cons]
          simp
      rw [List.length_cons,
        find?_range_shift
          (fun n => decide (1 ≤ n)
            && decide ((scanRun (d, inS, esc) (List.take n (c :: rest))).1 = 0))
          (fun k => decide (1 ≤ k)
            && decide ((scanRun ((scanStep (d, inS, esc) c).1, (scanStep (d, inS, esc) c).2.1,
                (scanStep (d, inS, esc) c).2.2) (List.take k rest)).1 = 0))
          _ (by simp) hpoint]
      cases hfind : (List.range (rest.length + 1)).find?
          (fun k => decide (1 ≤ k)
            && decide ((scanRun ((scanStep (d, inS, esc) c).1, (scanStep (d, inS, esc) c).2.1,
                (scanStep (d, inS, esc) c).2.2) (List.take k rest)).1 = 0)) with
      | none => simp
      | some n =>
        simp only [Option.map_some', List.take_succ_cons]
        simp

theorem dropUntilBrace_eq_none (l : List Char) : dropUntilBrace l = none ↔ '{' ∉ l := by
  induction l with
  | nil => simp [dropUntilBrace]
  | cons c rest ih =>
    by_cases hc : c = '{'
    · subst hc; simp [dropUntilBrace]
    · simp [dropUntilBrace, hc, ih]
      intro _ he
      exact hc he.symm

theorem dropUntilBrace_some (l sub : List Char) (h : dropUntilBrace l = some sub) :
    ∃ pre, l = pre ++ sub ∧ '{' ∉ pre ∧ ∃ r, sub = '{' :: r := by
  induction l generalizing sub with
  | nil => simp [dropUntilBrace] at h
  | cons c rest ih =>
    by_cases hc : c = '{'
    · subst hc
      rw [show dropUntilBrace ('{' :: rest) = some ('{' :: rest) from rfl] at h
      cases h
      exact ⟨[], rfl, by simp, rest, rfl⟩
    · have hred : dropUntilBrace (c :: rest) = dropUntilBrace rest := by
        simp [dropUntilBrace, hc]
      rw [hred] at h
      obtain ⟨pre, hl, hpre, r, hr⟩ := ih sub h
      refine ⟨c :: pre, by simp [hl], ?_, r, hr⟩
      simp only [List.mem_cons, not_or]
      exact ⟨fun he => hc he.symm, hpre⟩

theorem ebjGo_ends_close (cs : List Char) :
    ∀ (d : Int) (inS esc : Bool) (acc out : List Char),
      ebjGo cs d inS esc acc = some out → ∃ l0, out = l0 ++ ['}'] := by
  induction cs with
  | nil => intro d inS esc acc out h; simp [ebjGo] at h
  | cons c rest ih =>
    intro d inS esc acc out h
    by_cases hstop : inS = false ∧ c = '}' ∧ d = 1
    · obtain ⟨hS, hc, hd1⟩ := hstop
      subst hS; subst hc
      rw [ebjGo_cons_stop rest d esc acc hd1] at h
      cases h
      exact ⟨acc, rfl⟩
    · rw [ebjGo_cons_go c rest d inS esc acc hstop] at h
      exact ih _ _ _ _ _ h

/-- The extraction loop and the least-balanced-prefix search agree. -/
theorem extractBalancedJson_eq_spec (text : String) :
    extractBalancedJson text = extractBalancedJsonSpec text := by
  unfold extractBalancedJson extractBalancedJsonSpec
  cases hdrop : dropUntilBrace text.data with
  | none => rfl
  | some sub =>
    obtain ⟨pre, hl, hpre, r, hr⟩ := dropUntilBrace_some _ _ hdrop
    subst hr
    simp only [Option.some_bind]
    have hfirst : ebjGo ('{' :: r) 0 false false [] = ebjGo r 1 false false ['{'] := by
      rw [ebjGo_cons_go '{' r 0 false false [] (by simp)]
      rfl
    have hstep : scanStep (0, false, false) '{' = (1, false, false) := rfl
    rw [hfirst]
    rw [ebjGo_eq_find r 1 false false ['{'] (le_refl 1)]
    unfold balancedCloseLen
    have hpoint : ∀ k, (decide (1 ≤ k)
          && decide ((scanRun (1, false, false) (List.take k r)).1 = 0))
        = (decide (1 ≤ k + 1) && decide (scanDepth (List.take (k + 1) ('{' :: r)) = 0)) := by
      intro k
      cases k with
      | zero =>
        simp only [List.take_succ_cons, List.take_zero, scanDepth, scanRun_cons,
          scanRun_nil, hstep]
        simp [scanRun_nil]
      | succ j =>
        simp only [List.take_succ_cons, scanDepth, scanRun_cons, hstep]
        simp
    rw [List.length_cons,
      find?_range_shift
        (fun n => decide (1 ≤ n) && decide (scanDepth (List.take n ('{' :: r)) = 0))
        (fun k => decide (1 ≤ k)
          && decide ((scanRun (1, false, false) (List.take k r)).1 = 0))
        _ (by simp) hpoint]
    cases hfind : (List.range (r.length + 1)).find?
        (fun k => decide (1 ≤ k)
          && decide ((scanRun (1, false, false) (List.take k r)).1 = 0)) with
    | none => simp
    | some n => simp [List.take_succ_cons]

theorem extractBalancedJson_of_no_brace (t : String) (h : '{' ∉ t.data) :
    extractBalancedJson t = none := by
  unfold extractBalancedJson
  rw [(dropUntilBrace_eq_none t.data).mpr h]
  rfl

/-- Structure of a successful extraction: the result is the substring of
the input running from the first `{` to the first position where the
string-aware depth returns to zero (in particular it starts with `{`,
ends with `}`, has depth zero, and no shorter non-empty prefix has
depth zero). -/
theorem extractBalancedJson_some_props (t s : String)
    (h : extractBalancedJson t = some s) :
    (∃ pre suf, t.data = pre ++ s.data ++ suf ∧ '{' ∉ pre)
    ∧ (∃ r, s.data = '{' :: r)
    ∧ (∃ r, s.data = r ++ ['}'])
    ∧ scanDepth s.data = 0
    ∧ (∀ k, 1 ≤ k → k < s.data.length → scanDepth (s.data.take k) ≠ 0) := by
  have hclose : ∃ r, s.data = r ++ ['}'] := by
    unfold extractBalancedJson at h
    cases hdrop : dropUntilBrace t.data with
    | none => rw [hdrop] at h; simp at h
    | some sub =>
      rw [hdrop] at h
      simp only [Option.some_bind] at h
      cases hgo : ebjGo sub 0 false false [] with
      | none => rw [hgo] at h; simp at h
      | some out =>
        rw [hgo] at h
        simp only [Option.map_some'] at h
        obtain ⟨l0, hl0⟩ := ebjGo_ends_close sub 0 false false [] out hgo
        cases h
        exact ⟨l0, by simp [hl0]⟩
  rw [extractBalancedJson_eq_spec] at h
  unfold extractBalancedJsonSpec at h
  cases hdrop : dropUntilBrace t.data with
  | none => rw [hdrop] at h; simp at h
  | some sub =>
    rw [hdrop] at h
    simp only [Option.some_bind] at h
    obtain ⟨pre, hl, hpre, r, hr⟩ := dropUntilBrace_some _ _ hdrop
    cases hbcl : balancedCloseLen sub with
    | none => rw [hbcl] at h; simp at h
    | some n =>
      rw [hbcl] at h
      simp only [Option.map_some'] at h
      have hsdata : s.data = sub.take n := by
        cases h; rfl
      have hmem := List.mem_of_find?_eq_some hbcl
      have hnle : n ≤ sub.length := by
        have := List.mem_range.mp hmem
        omega
      obtain ⟨hpn, hmin⟩ := find?_range_min _ _ _ hbcl
      have hp1 : 1 ≤ n ∧ scanDepth (sub.take n) = 0 := by
        have := hpn
        simp only [Bool.and_eq_true, decide_eq_true_eq] at this
        exact this
      have hlen : s.data.length = n := by
        rw [hsdata, List.length_take]
        omega
      refine ⟨⟨pre, sub.drop n, ?_, hpre⟩, ?_, hclose, ?_, ?_⟩
      · rw [hl, hsdata]
        simp
      · rw [hsdata, hr]
        cases n with
        | zero => omega
        | succ m => exact ⟨(r.take m), by simp [List.take_succ_cons]⟩
      · rw [hsdata]; exact hp1.2
      · intro k hk1 hkn
        have hkfalse := hmin k (by omega)
        have hktake : s.data.take k = sub.take k := by
          rw [hsdata, List.take_take]
          congr 1
          omega
        rw [hktake]
        intro hdz
        rw [Bool.and_eq_false_iff] at hkfalse
        cases hkfalse with
        | inl hh => simp only [decide_eq_false_iff_not] at hh; omega
        | inr hh => simp only [decide_eq_false_iff_not] at hh; exact hh hdz

/-! ## Lemmas about `extractFirstFileUrl` -/

theorem startsWithL_append_self (pat rest : List Char) :
    startsWithL (pat ++ rest) pat = true := by
  induction pat with
  | nil => cases rest <;> rfl
  | cons p ps ih => simp [startsWithL, ih]

theorem containsSubL_cons_false {pat : List Char} {c : Char} {rest : List Char}
    (h : containsSubL pat (c :: rest) = false) :
    startsWithL (c :: rest) pat = false ∧ containsSubL pat rest = false := by
  rw [containsSubL] at h
  exact Bool.or_eq_false_iff.mp h

theorem extractFirstFileUrlGo_eq_none (l : List Char)
    (h1 : containsSubL ("http://".data) l = false)
    (h2 : containsSubL ("https://".data) l = false) :
    extractFirstFileUrlGo l = none := by
  induction l with
  | nil => rfl
  | cons c rest ih =>
    obtain ⟨hs1, hc1⟩ := containsSubL_cons_false h1
    obtain ⟨hs2, hc2⟩ := containsSubL_cons_false h2
    rw [extractFirstFileUrlGo, hs2, hs1]
    simp [ih hc1 hc2]

theorem extractFirstFileUrlGo_some_abs (l : List Char) :
    ∀ u : String, extractFirstFileUrlGo l = some u →
      startsWithL u.data ("http://".data) = true
        ∨ startsWithL u.data ("https://".data) = true := by
  induction l with
  | nil => intro u h; simp [extractFirstFileUrlGo] at h
  | cons c rest ih =>
    intro u h
    rw [extractFirstFileUrlGo] at h
    by_cases hs2 : startsWithL (c :: rest) ("https://".data) = true
    · rw [hs2] at h
      simp only [if_true] at h
      by_cases hrun : (((c :: rest).drop 8).takeWhile (fun d => !isUrlStopChar d)).isEmpty = true
      · rw [if_pos hrun] at h
        exact ih u h
      · rw [if_neg hrun] at h
        cases h
        right
        exact startsWithL_append_self _ _
    · rw [Bool.not_eq_true] at hs2
      rw [hs2] at h
      simp only [Bool.false_eq_true, if_false] at h
      by_cases hs1 : startsWithL (c :: rest) ("http://".data) = true
      · rw [hs1] at h
        simp only [if_true] at h
        by_cases hrun : (((c :: rest).drop 7).takeWhile (fun d => !isUrlStopChar d)).isEmpty = true
        · rw [if_pos hrun] at h
          exact ih u h
        · rw [if_neg hrun] at h
          cases h
          left
          exact startsWithL_append_self _ _
      · rw [Bool.not_eq_true] at hs1
        rw [hs1] at h
        simp only [Bool.false_eq_true, if_false] at h
        exact ih u h

/-! ## Claim theorems: classification and file-URL resolution -/

/-- The task description used in the C1 counterexample: an explicit
`csv-sum` tag together with a `.pdf` URL. -/
def c1ExParsed : ParsedTask :=
  { task := some "csv-sum", url := some "https://x/file.pdf" }

/-- C1 counterexample: with an explicit `task: "csv-sum"` tag but a URL
ending in `.pdf`, the dispatcher takes the PDF branch, because the PDF
heuristic check is disjoined with (not bypassed by) the explicit tag.
Dispatch therefore does not follow the literal tag. -/
theorem c1_explicit_tag_cex :
    c1ExParsed.task = some "csv-sum"
    ∧ classifyTask (some c1ExParsed) "" = TaskKind.pdfSum
    ∧ TaskKind.pdfSum ≠ TaskKind.csvSum :=
  ⟨rfl, by decide, by decide⟩

/-- C1 (amended): an explicit `task`/`type` tag replaces only the
page-text inference; dispatch reaches the tagged branch exactly when no
earlier heuristic check (PDF, CSV, audio, image, in source order)
matches.  A `pdf-sum` tag always dispatches to the PDF branch because
that branch is first. -/
theorem c1_explicit_tag (op : Option ParsedTask) (text : String) :
    (effTask op text = some "pdf-sum" → classifyTask op text = TaskKind.pdfSum)
    ∧ (effTask op text = some "csv-sum" → looksLikePdfTask op text = false →
        classifyTask op text = TaskKind.csvSum)
    ∧ (effTask op text = some "audio-transcribe" → looksLikePdfTask op text = false →
        looksLikeCsvTask op text = false →
        classifyTask op text = TaskKind.audioTranscribe)
    ∧ (effTask op text = some "image-ocr" → looksLikePdfTask op text = false →
        looksLikeCsvTask op text = false → looksLikeAudioTask op text = false →
        classifyTask op text = TaskKind.imageOcr)
    ∧ (effTask op text = some "chart" → looksLikePdfTask op text = false →
        looksLikeCsvTask op text = false → looksLikeAudioTask op text = false →
        looksLikeImageTask op text = false → classifyTask op text = TaskKind.chart) := by
  refine ⟨?_, ?_, ?_, ?_, ?_⟩
  · intro h
    simp [classifyTask, h]
  · intro h hpdf
    simp [classifyTask, h, hpdf]
  · intro h hpdf hcsv
    simp [classifyTask, h, hpdf, hcsv]
  · intro h hpdf hcsv haud
    simp [classifyTask, h, hpdf, hcsv, haud]
  · intro h hpdf hcsv haud himg
    simp [classifyTask, h, hpdf, hcsv, haud, himg]

/-- C1 witness: a bare `csv-sum` tag with no heuristic signals
dispatches to the CSV branch. -/
theorem c1_explicit_tag_witness :
    classifyTask (some { task := some "csv-sum" }) "hello" = TaskKind.csvSum :=
  (c1_explicit_tag (some { task := some "csv-sum" }) "hello").2.1 (by decide) (by decide)

/-- The task description used in the C4 theorems. -/
def c4ExParsed : ParsedTask := { url := some "https://x/demo-audio.wav" }

/-- C4 counterexample: a demo-audio URL together with page text
`"pdf page"` classifies as `pdf-sum`, not `audio-transcribe`: the text
inference produces an effective `pdf-sum` tag, and the tag disjunct of
the PDF branch fires even though `looksLikePdfTask` rejects. -/
theorem c4_audio_exclusion_cex :
    urlAudioPattern "https://x/demo-audio.wav" = true
    ∧ looksLikePdfTask (some c4ExParsed) "pdf page" = false
    ∧ classifyTask (some c4ExParsed) "pdf page" = TaskKind.pdfSum
    ∧ TaskKind.pdfSum ≠ TaskKind.audioTranscribe :=
  ⟨by decide, by decide, by decide, by decide⟩

/-- C4 (amended): an audio-matching URL forces `looksLikePdfTask` and
`looksLikeCsvTask` to reject, and the description classifies as
`audio-transcribe` provided the effective task tag (explicit field or
text inference) is neither `pdf-sum` nor `csv-sum`. -/
theorem c4_audio_exclusion (p : ParsedTask) (text u : String)
    (hu : p.url = some u) (hpat : urlAudioPattern u = true) :
    looksLikePdfTask (some p) text = false
    ∧ looksLikeCsvTask (some p) text = false
    ∧ (effTask (some p) text ≠ some "pdf-sum" → effTask (some p) text ≠ some "csv-sum" →
        classifyTask (some p) text = TaskKind.audioTranscribe) := by
  have hne : u.data.isEmpty = false := by
    cases hd : u.data.isEmpty
    · rfl
    · exfalso
      obtain ⟨ud⟩ := u
      simp only [List.isEmpty_eq_true] at hd
      subst hd
      exact absurd hpat (by decide)
  have hurl : truthyUrl (some p) = some u := by
    simp [truthyUrl, strTruthy, hu, hne]
  refine ⟨?_, ?_, ?_⟩
  · simp [looksLikePdfTask, hurl, hpat]
  · simp [looksLikeCsvTask, hurl, hpat]
  · intro hp hc
    have haud : looksLikeAudioTask (some p) text = true := by
      simp [looksLikeAudioTask, strTruthy, hu, hne, hpat]
    have hbp : (effTask (some p) text == some "pdf-sum") = false := by
      simp [hp]
    have hbc : (effTask (some p) text == some "csv-sum") = false := by
      simp [hc]
    simp [classifyTask, looksLikePdfTask, looksLikeCsvTask, hurl, hpat, hbp, hbc, haud]

/-- C4 witness: the demo-audio URL with page text mentioning `pdf` (but
not `page`) still classifies as `audio-transcribe`. -/
theorem c4_audio_exclusion_witness :
    classifyTask (some c4ExParsed) "this mentions pdf" = TaskKind.audioTranscribe :=
  (c4_audio_exclusion c4ExParsed "this mentions pdf" "https://x/demo-audio.wav"
      rfl (by decide)).2.2 (by decide) (by decide)

/-- C5: the balanced-JSON extractor agrees with the least-balanced-
prefix specification: it returns the substring from the first `{` to
the matching closing `}` (string literals and escaped quotes skipped),
and `none` when there is no `{` or no balanced object; the spec's
example and an escaped-quote example evaluate as stated. -/
theorem c5_extract_balanced_json :
    (∀ t : String, extractBalancedJson t = extractBalancedJsonSpec t)
    ∧ (∀ t : String, '{' ∉ t.data → extractBalancedJson t = none)
    ∧ (∀ t s : String, extractBalancedJson t = some s →
        (∃ pre suf, t.data = pre ++ s.data ++ suf ∧ '{' ∉ pre)
        ∧ (∃ r, s.data = '{' :: r)
        ∧ (∃ r, s.data = r ++ ['}'])
        ∧ scanDepth s.data = 0
        ∧ (∀ k, 1 ≤ k → k < s.data.length → scanDepth (s.data.take k) ≠ 0))
    ∧ extractBalancedJson "foo \x7b\"a\": \"b\x7dc\", \"d\": \x7b\"e\":1\x7d\x7d bar"
        = some "\x7b\"a\": \"b\x7dc\", \"d\": \x7b\"e\":1\x7d\x7d"
    ∧ extractBalancedJson "\x7b\"a\": \"\\\"\x7d\"\x7d tail"
        = some "\x7b\"a\": \"\\\"\x7d\"\x7d" :=
  ⟨extractBalancedJson_eq_spec,
   extractBalancedJson_of_no_brace,
   extractBalancedJson_some_props,
   by decide,
   by decide⟩

/-- C5 witness: the no-brace case and the structural facts at a concrete
balanced input. -/
theorem c5_extract_balanced_json_witness :
    extractBalancedJson "no braces at all" = none
    ∧ (∃ r, ("\x7b\"e\":1\x7d" : String).data = '{' :: r) :=
  ⟨c5_extract_balanced_json.2.1 "no braces at all" (by decide),
   (c5_extract_balanced_json.2.2.1 "x \x7b\"e\":1\x7d y" "\x7b\"e\":1\x7d"
       (by decide)).2.1⟩

/-- C10: `extractFirstFileUrl` only ever produces absolute
`http(s)` URLs and ignores its `baseUrl` argument; consequently, when
the task description has no (truthy) `url` and the page text contains
no absolute URL, each of the four file-based branches fails with its
`No file URL` error instead of resolving a relative path. -/
theorem c10_no_file_url (op : Option ParsedTask) (text baseUrl : String)
    (hurl : truthyUrl op = none)
    (habs1 : containsSubL ("http://".data) text.data = false)
    (habs2 : containsSubL ("https://".data) text.data = false) :
    extractFirstFileUrl text baseUrl = none
    ∧ (∀ b b2 : String, extractFirstFileUrl text b = extractFirstFileUrl text b2)
    ∧ (∀ (t2 : String) (u : String) (b : String), extractFirstFileUrl t2 b = some u →
        startsWithL u.data ("http://".data) = true
          ∨ startsWithL u.data ("https://".data) = true)
    ∧ (classifyTask op text = TaskKind.pdfSum →
        analyzeRoute op text baseUrl = EngineRoute.fail "No file URL for PDF task")
    ∧ (classifyTask op text = TaskKind.csvSum →
        analyzeRoute op text baseUrl = EngineRoute.fail "No file URL for CSV task")
    ∧ (classifyTask op text = TaskKind.audioTranscribe →
        analyzeRoute op text baseUrl = EngineRoute.fail "No file URL for Audio task")
    ∧ (classifyTask op text = TaskKind.imageOcr →
        analyzeRoute op text baseUrl = EngineRoute.fail "No file URL for Image task") := by
  have hnone : extractFirstFileUrl text baseUrl = none :=
    extractFirstFileUrlGo_eq_none text.data habs1 habs2
  have hfile : fileUrlFor op text baseUrl = none := by
    simp [fileUrlFor, hurl, hnone]
  refine ⟨hnone, fun b b2 => rfl,
    fun t2 u b h => extractFirstFileUrlGo_some_abs t2.data u h, ?_, ?_, ?_, ?_⟩
  all_goals intro hclass
  all_goals simp [analyzeRoute, hclass, hfile]

/-- C10 witness: a page text that references its PDF only by a relative
path makes the PDF branch fail with the `No file URL` error. -/
theorem c10_no_file_url_witness :
    analyzeRoute (some {}) "sum the pdf table in ./files/report.pdf" "https://quiz.example/q1"
      = EngineRoute.fail "No file URL for PDF task" :=
  (c10_no_file_url (some {}) "sum the pdf table in ./files/report.pdf"
      "https://quiz.example/q1" (by decide) (by decide) (by decide)).2.2.2.1 (by decide)

/-! ## Claim theorems: PDF sum and CSV sum -/

/-- C2 (evaluation at the failing inputs): with page text lines
`Item   10` and `Item   20` the computed sum is `0`, not the claimed
`30` — the first token `Item` strips to the empty string, `Number` maps
the empty string to `0` (not `NaN`), so `0` is accumulated and the
line's scan stops before reaching `10`.  Likewise raw text
`10 apples 5 oranges` sums to `105`, not the claimed fallback `15`,
because single spaces do not split, so the whole line is one token
stripping to `105`, and the fallback never runs. -/
theorem c2_pdf_sum_divergence :
    sumColumnText "Item   10\nItem   20" 2 = 0
    ∧ sumColumnText "Item   10\nItem   20" 2 ≠ 30
    ∧ sumColumnText "10 apples 5 oranges" 2 = 105
    ∧ sumColumnText "10 apples 5 oranges" 2 ≠ 15 := by
  have h1 : sumColumnText "Item   10\nItem   20" 2 = 0 := by
    norm_num +decide [sumColumnText, pdfSumLines, firstTokenNum, splitPdfTokens, splitPdfGo,
      stripNonNum, jsNumberOfString, jsExpTail, digitsVal, trimL, splitOnCharL, jsIndex,
      strTruthy, isWsChar, isDigitChar]
  have h2 : sumColumnText "10 apples 5 oranges" 2 = 105 := by
    norm_num +decide [sumColumnText, pdfSumLines, firstTokenNum, splitPdfTokens, splitPdfGo,
      stripNonNum, jsNumberOfString, jsExpTail, digitsVal, trimL, splitOnCharL, jsIndex,
      strTruthy, isWsChar, isDigitChar]
  refine ⟨h1, by rw [h1]; norm_num, h2, by rw [h2]; norm_num⟩

theorem foldl_add_map {α : Type} (f : α → ℚ) (l : List α) :
    ∀ a : ℚ, l.foldl (fun s r => s + f r) a = a + (l.map f).sum := by
  induction l with
  | nil => intro a; simp
  | cons x xs ih =>
    intro a
    simp only [List.foldl_cons, List.map_cons, List.sum_cons]
    rw [ih (a + f x)]
    ring

theorem csvSum_eq_sum_contributions (rows : List (List (String × String))) (col : String) :
    csvSum rows col = (rows.map (csvContribution col)).sum := by
  unfold csvSum
  have hpt : (fun (s : ℚ) (r : List (String × String)) =>
      s + (match List.lookup col r with
           | none => 0
           | some v =>
             match jsNumberOfString v with
             | none => 0
             | some q => q))
      = fun s r => s + csvContribution col r := by
    funext s r
    unfold csvContribution
    rcases hl : List.lookup col r with _ | v
    · rfl
    · show s + (match jsNumberOfString v with
          | none => 0
          | some q => q) = s + (jsNumberOfString v).getD 0
      rcases jsNumberOfString v with _ | q <;> rfl
  rw [hpt, foldl_add_map (csvContribution col) rows 0, zero_add]

/-- C6: the csv-sum branch sums, over all records, the numeric value of
the named column, with missing or non-numeric values contributing zero;
the column name defaults to `value` and is overridden by `column`, then
`field`; and the spec's example sums to `8.5`. -/
theorem c6_csv_sum :
    (∀ (rows : List (List (String × String))) (col : String),
        csvSum rows col = (rows.map (csvContribution col)).sum)
    ∧ resolveCsvColumn none = "value"
    ∧ resolveCsvColumn (some {}) = "value"
    ∧ (∀ (p : ParsedTask) (c : String), strTruthy p.column = some c →
        resolveCsvColumn (some p) = c)
    ∧ (∀ (p : ParsedTask) (f : String), strTruthy p.column = none →
        strTruthy p.field = some f → resolveCsvColumn (some p) = f)
    ∧ csvSum [[("value", "3")], [("value", "abc")], [("value", "5.5")]] "value"
        = 17 / 2 := by
  refine ⟨csvSum_eq_sum_contributions, rfl, rfl, ?_, ?_, ?_⟩
  · intro p c hc
    simp [resolveCsvColumn, jsOrStr, hc]
  · intro p f hc hf
    simp [resolveCsvColumn, jsOrStr, hc, hf]
  · norm_num +decide [csvSum, jsNumberOfString, jsExpTail, digitsVal, digitsValNat,
      trimL, isWsChar, isDigitChar, List.lookup,
      show Char.toNat '3' = 51 from rfl, show Char.toNat '5' = 53 from rfl]

/-- C6 witness: the column resolution and the concrete sum, at concrete
inputs discharging the hypotheses. -/
theorem c6_csv_sum_witness :
    resolveCsvColumn (some { column := some "amount" }) = "amount"
    ∧ resolveCsvColumn (some { field := some "qty" }) = "qty" :=
  ⟨c6_csv_sum.2.2.2.1 { column := some "amount" } "amount" (by decide),
   c6_csv_sum.2.2.2.2.1 { field := some "qty" } "qty" (by decide) (by decide)⟩

/-! ## A model of `JSON.parse` (strict JSON, fuel-bounded)

The fuel is chosen generously (twice the input length) so that it never
runs out on inputs the program can encounter: every two fuel units
consume at least one input character. -/

def isJsonWs (c : Char) : Bool := c == ' ' || c == '\t' || c == '\n' || c == '\r'

def skipWsJ (l : List Char) : List Char := l.dropWhile isJsonWs

def hexVal (c : Char) : Option Nat :=
  if '0' ≤ c && c ≤ '9' then some (c.toNat - 48)
  else if 'a' ≤ c && c ≤ 'f' then some (c.toNat - 87)
  else if 'A' ≤ c && c ≤ 'F' then some (c.toNat - 55)
  else none

/-- Body of a JSON string literal after the opening quote: the decoded
characters and the remainder after the closing quote. -/
def parseStringBody : Nat → List Char → Option (List Char × List Char)
  | 0, _ => none
  | _ + 1, [] => none
  | f + 1, c :: rest =>
    if c = '"' then some ([], rest)
    else if c = '\\' then
      match rest with
      | [] => none
      | e :: r2 =>
        let dec : Option (List Char × List Char) :=
          if e = '"' then some (['"'], r2)
          else if e = '\\' then some (['\\'], r2)
          else if e = '/' then some (['/'], r2)
          else if e = 'n' then some (['\n'], r2)
          else if e = 't' then some (['\t'], r2)
          else if e = 'r' then some (['\r'], r2)
          else if e = 'b' then some (['\x08'], r2)
          else if e = 'f' then some (['\x0c'], r2)
          else if e = 'u' then
            match r2 with
            | h1 :: h2 :: h3 :: h4 :: r3 =>
              match hexVal h1, hexVal h2, hexVal h3, hexVal h4 with
              | some a, some b, some c3, some d =>
                some ([Char.ofNat (((a * 16 + b) * 16 + c3) * 16 + d)], r3)
              | _, _, _, _ => none
            | _ => none
          else none
        match dec with
        | none => none
        | some (chs, r3) => (parseStringBody f r3).map (fun pr => (chs ++ pr.1, pr.2))
    else (parseStringBody f rest).map (fun pr => (c :: pr.1, pr.2))

/-- Optional exponent tail of a JSON number. -/
def parseJsonExp (sign mant : ℚ) (l : List Char) : Option (ℚ × List Char) :=
  match l with
  | 'e' :: r | 'E' :: r =>
    let er : Bool × List Char :=
      match r with
      | '+' :: rr => (true, rr)
      | '-' :: rr => (false, rr)
      | _ => (true, r)
    let es := er.2.takeWhile isDigitChar
    if es.isEmpty then none
    else
      some ((if er.1 then sign * mant * 10 ^ digitsValNat es
             else sign * mant / 10 ^ digitsValNat es), er.2.drop es.length)
  | _ => some (sign * mant, l)

/-- A JSON number literal (strict grammar: no leading zeros, no bare
dot, optional fraction and exponent). -/
def parseJsonNumber (l : List Char) : Option (ℚ × List Char) :=
  let sgn : ℚ × List Char :=
    match l with
    | '-' :: r => (-1, r)
    | _ => (1, l)
  let l1 := sgn.2
  let ds := l1.takeWhile isDigitChar
  if ds.isEmpty then none
  else if 2 ≤ ds.length && ds.head? == some '0' then none
  else
    let r1 := l1.drop ds.length
    match r1 with
    | '.' :: rf =>
      let fs := rf.takeWhile isDigitChar
      if fs.isEmpty then none
      else parseJsonExp sgn.1 ((digitsValNat ds : ℚ) + (digitsValNat fs : ℚ) / 10 ^ fs.length)
        (rf.drop fs.length)
    | _ => parseJsonExp sgn.1 (digitsValNat ds : ℚ) r1

mutual

def parseJsonVal : Nat → List Char → Option (JsValue × List Char)
  | 0, _ => none
  | f + 1, l =>
    match skipWsJ l with
    | [] => none
    | c :: rest =>
      if c = 'n' then
        if startsWithL rest ("ull".data) then some (.null, rest.drop 3) else none
      else if c = 't' then
        if startsWithL rest ("rue".data) then some (.bool true, rest.drop 3) else none
      else if c = 'f' then
        if startsWithL rest ("alse".data) then some (.bool false, rest.drop 4) else none
      else if c = '"' then
        (parseStringBody (rest.length + 1) rest).map
          (fun pr => (.str ⟨pr.1⟩, pr.2))
      else if c = '[' then
        match skipWsJ rest with
        | ']' :: r2 => some (.arr [], r2)
        | _ => parseJsonElems f rest []
      else if c = '{' then
        match skipWsJ rest with
        | '}' :: r2 => some (.obj [], r2)
        | _ => parseJsonMembers f rest []
      else
        (parseJsonNumber (c :: rest)).map (fun pr => (.num pr.1, pr.2))

def parseJsonElems : Nat → List Char → List JsValue → Option (JsValue × List Char)
  | 0, _, _ => none
  | f + 1, l, acc =>
    match parseJsonVal f l with
    | none => none
    | some (v, r) =>
      match skipWsJ r with
      | ',' :: r2 => parseJsonElems f r2 (acc ++ [v])
      | ']' :: r2 => some (.arr (acc ++ [v]), r2)
      | _ => none

def parseJsonMembers : Nat → List Char → List (String × JsValue) → Option (JsValue × List Char)
  | 0, _, _ => none
  | f + 1, l, acc =>
    match skipWsJ l with
    | '"' :: r =>
      match parseStringBody (r.length + 1) r with
      | none => none
      | some (k, r2) =>
        match skipWsJ r2 with
        | ':' :: r4 =>
          match parseJsonVal f r4 with
          | none => none
          | some (v, r5) =>
            match skipWsJ r5 with
            | ',' :: r7 => parseJsonMembers f r7 (acc ++ [(⟨k⟩, v)])
            | '}' :: r7 => some (.obj (acc ++ [(⟨k⟩, v)]), r7)
            | _ => none
        | _ => none
    | _ => none

end

/-- Model of `JSON.parse(s)`: a full parse of the input (only trailing
whitespace allowed), `none` models the thrown `SyntaxError`. -/
def jsonParse (s : String) : Option JsValue :=
  match parseJsonVal (2 * s.data.length + 2) s.data with
  | some (v, rest) => if (skipWsJ rest).isEmpty then some v else none
  | none => none

/-! ## Models of `JSON.stringify`, `String(...)` and `encodeURIComponent` -/

def natDigitsGo : Nat → Nat → List Char → List Char
  | 0, _, acc => acc
  | f + 1, n, acc =>
    if n = 0 then acc else natDigitsGo f (n / 10) (Char.ofNat (48 + n % 10) :: acc)

def natDigitsStr (n : Nat) : List Char :=
  if n = 0 then ['0'] else natDigitsGo (n + 1) n []

/-- Least scale `k ≤ 30` such that the denominator divides `10^k`. -/
def findDecScale (den : Nat) : Option Nat :=
  (List.range 31).find? (fun k => 10 ^ k % den == 0)

def padZeros (k : Nat) (l : List Char) : List Char :=
  List.replicate (k - l.length) '0' ++ l

/-- JavaScript's decimal rendering of the rationals arising in this
program (integers and finite decimals; other rationals, which the
modelled code never produces, render as a fraction). -/
def ratToStrJs (q : ℚ) : List Char :=
  let sgn : List Char := if q < 0 then ['-'] else []
  if q.den = 1 then sgn ++ natDigitsStr q.num.natAbs
  else
    match findDecScale q.den with
    | some k =>
      let scaled := q.num.natAbs * (10 ^ k / q.den)
      sgn ++ natDigitsStr (scaled / 10 ^ k) ++ '.' :: padZeros k (natDigitsStr (scaled % 10 ^ k))
    | none => sgn ++ natDigitsStr q.num.natAbs ++ '/' :: natDigitsStr q.den

def escapeJsonStr (l : List Char) : List Char :=
  l.foldr
    (fun c acc =>
      if c = '"' then '\\' :: '"' :: acc
      else if c = '\\' then '\\' :: '\\' :: acc
      else if c = '\n' then '\\' :: 'n' :: acc
      else if c = '\t' then '\\' :: 't' :: acc
      else if c = '\r' then '\\' :: 'r' :: acc
      else c :: acc)
    []

def joinCommaL (ls : List (List Char)) : List Char :=
  match ls with
  | [] => []
  | h :: t => h ++ t.foldr (fun x acc => ',' :: x ++ acc) []

/-- Model of `JSON.stringify` (default options: no spacing, insertion
order preserved). -/
def stringifyL : JsValue → List Char
  | .null => "null".data
  | .bool true => "true".data
  | .bool false => "false".data
  | .num q => ratToStrJs q
  | .str s => '"' :: escapeJsonStr s.data ++ ['"']
  | .arr xs => '[' :: joinCommaL (xs.attach.map (fun x => stringifyL x.1)) ++ [']']
  | .obj kvs =>
    '{' :: joinCommaL
        (kvs.attach.map
          (fun kv => '"' :: escapeJsonStr kv.1.1.data ++ '"' :: ':' :: stringifyL kv.1.2))
      ++ ['}']
decreasing_by
  · have h1 := List.sizeOf_lt_of_mem x.2
    simp only [JsValue.arr.sizeOf_spec]
    omega
  · have h1 := List.sizeOf_lt_of_mem kv.2
    have h2 : sizeOf kv.1.2 < sizeOf kv.1 := by
      cases hkv : kv.1 with
      | mk a b => simp [hkv]
    simp only [JsValue.obj.sizeOf_spec]
    omega

def stringifyJs (v : JsValue) : String := ⟨stringifyL v⟩

/-- Model of the `String(...)` coercion for the values this program
passes to it (arrays join their elements with commas, `null` elements
rendering empty; objects render as `[object Object]`). -/
def jsToStringL : JsValue → List Char
  | .null => "null".data
  | .bool true => "true".data
  | .bool false => "false".data
  | .num q => ratToStrJs q
  | .str s => s.data
  | .arr xs =>
    joinCommaL (xs.attach.map (fun x =>
      match x.1 with
      | .null => []
      | _ => jsToStringL x.1))
  | .obj _ => "[object Object]".data
decreasing_by
  · have h1 := List.sizeOf_lt_of_mem x.2
    simp only [JsValue.arr.sizeOf_spec]
    omega

def jsToString (v : JsValue) : String := ⟨jsToStringL v⟩

def isUriUnreserved (c : Char) : Bool :=
  ('a' ≤ c && c ≤ 'z') || ('A' ≤ c && c ≤ 'Z') || ('0' ≤ c && c ≤ '9')
    || c == '-' || c == '_' || c == '.' || c == '!' || c == '~' || c == '*'
    || c == '\'' || c == '(' || c == ')'

def hexDigitUpper (n : Nat) : Char :=
  if n < 10 then Char.ofNat (48 + n) else Char.ofNat (55 + n)

def utf8Bytes (c : Char) : List Nat :=
  let n := c.toNat
  if n < 128 then [n]
  else if n < 2048 then [192 + n / 64, 128 + n % 64]
  else if n < 65536 then [224 + n / 4096, 128 + (n / 64) % 64, 128 + n % 64]
  else [240 + n / 262144, 128 + (n / 4096) % 64, 128 + (n / 64) % 64, 128 + n % 64]

/-- Model of `encodeURIComponent`. -/
def encodeURIComponent (s : String) : String :=
  ⟨s.data.foldr
    (fun c acc =>
      if isUriUnreserved c then c :: acc
      else (utf8Bytes c).foldr
        (fun b a2 => '%' :: hexDigitUpper (b / 16) :: hexDigitUpper (b % 16) :: a2) acc)
    []⟩

/-! ## A model of WHATWG URL origin and resolution

Modelled fragment: absolute http(s) URLs, scheme-relative (`//…`),
root-relative (`/…`) and plain path-relative references without
dot-segments — the forms this program's pages use. -/

/-- Split an absolute http(s) URL into scheme, host characters, and the
remainder (path, query, fragment). -/
def splitAbsUrl (u : String) : Option (String × List Char × List Char) :=
  let notHostEnd := fun (c : Char) => !(c == '/' || c == '?' || c == '#')
  if startsWithL u.data ("https://".data) then
    let rest := u.data.drop 8
    some ("https", rest.takeWhile notHostEnd, rest.dropWhile notHostEnd)
  else if startsWithL u.data ("http://".data) then
    let rest := u.data.drop 7
    some ("http", rest.takeWhile notHostEnd, rest.dropWhile notHostEnd)
  else none

/-- `new URL(u).origin` for absolute http(s) URLs; `none` models the
thrown `TypeError`. -/
def urlOrigin (u : String) : Option String :=
  (splitAbsUrl u).map (fun t => t.1 ++ "://" ++ (⟨t.2.1⟩ : String))

/-- `new URL(rel, base).toString()` on the modelled fragment; `none`
models the thrown `TypeError` (relative reference against an invalid
base). -/
def resolveUrl (rel : String) (base : String) : Option String :=
  if startsWithL rel.data ("http://".data) || startsWithL rel.data ("https://".data) then
    some rel
  else
    match splitAbsUrl base with
    | none => none
    | some (scheme, host, rest) =>
      if startsWithL rel.data ("//".data) then some (scheme ++ ":" ++ rel)
      else if rel.data.head? == some '/' then
        some (scheme ++ "://" ++ (⟨host⟩ : String) ++ rel)
      else
        let path := rest.takeWhile (fun c => !(c == '?' || c == '#'))
        let dir := (path.reverse.dropWhile (fun c => !(c == '/'))).reverse
        let dir2 := if dir.isEmpty then ['/'] else dir
        some (scheme ++ "://" ++ (⟨host⟩ : String) ++ (⟨dir2⟩ : String) ++ rel)

/-! ## The submission driver of `solveQuiz` -/

/-- One delivery strategy of the ordered fallback chain. -/
structure SubmitAttempt where
  label : String
  url : String
  method : String
  contentType : Option String
  body : Option String

/-- The six delivery attempts of `solveQuiz`, in source order. -/
def buildAttempts (email secret url : String) (answer : JsValue)
    (originUrl submitUrl : String) : List SubmitAttempt :=
  let payloadJson := stringifyJs (.obj
    [("email", .str email), ("secret", .str secret), ("url", .str url), ("answer", answer)])
  let payloadForm := "email=" ++ encodeURIComponent email
    ++ "&secret=" ++ encodeURIComponent secret
    ++ "&url=" ++ encodeURIComponent url
    ++ "&answer=" ++ encodeURIComponent (jsToString answer)
  let payloadPlain := jsToString answer
  [ ⟨"POST JSON /submit", originUrl ++ "/submit", "POST", some "application/json",
      some payloadJson⟩,
    ⟨"POST Form /submit", originUrl ++ "/submit", "POST",
      some "application/x-www-form-urlencoded", some payloadForm⟩,
    ⟨"POST JSON", submitUrl, "POST", some "application/json", some payloadJson⟩,
    ⟨"POST Form", submitUrl, "POST", some "application/x-www-form-urlencoded",
      some payloadForm⟩,
    ⟨"POST Plain", submitUrl, "POST", some "text/plain", some payloadPlain⟩,
    ⟨"GET Query",
      submitUrl ++ (if containsSubL ['?'] submitUrl.data then "&" else "?")
        ++ "answer=" ++ encodeURIComponent (jsToString answer)
        ++ "&email=" ++ encodeURIComponent email
        ++ "&secret=" ++ encodeURIComponent secret,
      "GET", none, none⟩ ]

/-- The response observed by one `doFetch` call: `none` models a thrown
network error (timeout included); otherwise the HTTP status and the raw
body text. -/
abbrev AttemptResponse := Option (Nat × String)

def respOk : AttemptResponse → Bool
  | none => false
  | some st => 200 ≤ st.1 && st.1 < 300

/-- `parsedResp ?? rawText` where `parsedResp` is `JSON.parse(rawText)`
if it does not throw and `rawText` otherwise: a parse result of JSON
`null` falls through `??` to the raw text. -/
def finalVal (raw : String) : JsValue :=
  match jsonParse raw with
  | some .null => .str raw
  | some v => v
  | none => .str raw

def failureMarker : JsValue :=
  .obj [("correct", .bool false), ("reason", .str "submission failed")]

/-- The attempt loop of `solveQuiz`: one response is consumed per
attempt (a missing response models a network error), the first `ok`
response ends the loop with its parsed value; also counts the attempts
performed. -/
def submitGo : List SubmitAttempt → List AttemptResponse → Nat → Option JsValue × Nat
  | [], _, n => (none, n)
  | _ :: ats, resps, n =>
    match resps.headD none with
    | some st =>
      if 200 ≤ st.1 && st.1 < 300 then (some (finalVal st.2), n + 1)
      else submitGo ats resps.tail (n + 1)
    | none => submitGo ats resps.tail (n + 1)

/-- The submission stage of `solveQuiz` after the attempts list is
built: run the loop, then `if (!finalReply) return marker else return
finalReply`. -/
def submitLoop (attempts : List SubmitAttempt) (resps : List AttemptResponse) :
    JsValue × Nat :=
  let r := submitGo attempts resps 0
  match r.1 with
  | none => (failureMarker, r.2)
  | some v => if jsTruthy v then (v, r.2) else (failureMarker, r.2)

/-- The full submission stage, computing `originUrl` from the page URL
and `submitUrl` as `parsed?.url || url` as the source does. -/
def solveQuizSubmit (email secret url : String) (answer : JsValue)
    (parsedUrl : Option String) (resps : List AttemptResponse) :
    Option (JsValue × Nat) :=
  (urlOrigin url).map
    (fun origin =>
      submitLoop
        (buildAttempts email secret url answer origin ((jsOrStr parsedUrl (some url)).getD url))
        resps)

/-! ### Lemmas about the submission loop -/

theorem submitGo_all_fail :
    ∀ (ats : List SubmitAttempt) (resps : List AttemptResponse) (n : Nat),
      (∀ r ∈ resps, respOk r = false) → (submitGo ats resps n).1 = none := by
  intro ats
  induction ats with
  | nil => intro resps n _; rfl
  | cons a ats ih =>
    intro resps n hfail
    cases resps with
    | nil =>
      simp only [submitGo, List.headD_nil, List.tail_nil]
      exact ih [] (n + 1) (by simp)
    | cons r rs =>
      have hfr : respOk r = false := hfail r (List.mem_cons_self r rs)
      have hrs : ∀ x ∈ rs, respOk x = false :=
        fun x hx => hfail x (List.mem_cons_of_mem r hx)
      cases r with
      | none =>
        simp only [submitGo, List.headD_cons, List.tail_cons]
        exact ih rs (n + 1) hrs
      | some st =>
        have hcond : (200 ≤ st.1 && st.1 < 300) = false := hfr
        simp only [submitGo, List.headD_cons, List.tail_cons, hcond, Bool.false_eq_true,
          if_false]
        exact ih rs (n + 1) hrs

theorem submitGo_first_ok (st : Nat) (raw : String) (h200 : 200 ≤ st) (h300 : st < 300) :
    ∀ (pre : List AttemptResponse) (ats : List SubmitAttempt)
      (rest : List AttemptResponse) (n : Nat),
      (∀ r ∈ pre, respOk r = false) → pre.length < ats.length →
      submitGo ats (pre ++ some (st, raw) :: rest) n
        = (some (finalVal raw), n + pre.length + 1) := by
  intro pre
  induction pre with
  | nil =>
    intro ats rest n _ hlen
    cases ats with
    | nil => simp at hlen
    | cons a ats =>
      have hcond : (200 ≤ (st, raw).1 && (st, raw).1 < 300) = true := by
        simp [h200, h300]
      simp [submitGo, hcond]
  | cons r pre ih =>
    intro ats rest n hfail hlen
    cases ats with
    | nil => simp at hlen
    | cons a ats =>
      have hfr : respOk r = false := hfail r (List.mem_cons_self r pre)
      have hpre : ∀ x ∈ pre, respOk x = false :=
        fun x hx => hfail x (List.mem_cons_of_mem r hx)
      have hlen' : pre.length < ats.length := by
        simp only [List.length_cons] at hlen
        omega
      cases r with
      | none =>
        simp only [List.cons_append, submitGo, List.headD_cons, List.tail_cons]
        rw [ih ats rest (n + 1) hpre hlen']
        simp only [List.length_cons]
        congr 1
        omega
      | some st0 =>
        have hcond : (200 ≤ st0.1 && st0.1 < 300) = false := hfr
        simp only [List.cons_append, submitGo, List.headD_cons, List.tail_cons, hcond,
          Bool.false_eq_true, if_false]
        rw [ih ats rest (n + 1) hpre hlen']
        simp only [List.length_cons]
        congr 1
        omega

/-! ## Claim theorems: the submission driver -/

/-- C3 counterexample: a single attempt answered 2xx with an empty body
terminates the sequence, but the result is the failure marker, not the
(empty) body. -/
theorem c3_submission_cex :
    submitLoop (buildAttempts "e@x" "s" "https://h/q" (.str "42") "https://h" "https://h/q")
        [some (200, "")] = (failureMarker, 1)
    ∧ failureMarker ≠ JsValue.str "" :=
  ⟨rfl, fun h => JsValue.noConfusion h⟩

/-- C3 (amended): the six delivery attempts are built in the fixed
order (JSON POST and form POST to origin `/submit`, JSON, form and
plain-text POST to the fallback URL, then GET with query parameters);
the first attempt receiving a 2xx status terminates the sequence and
its parsed body becomes the result provided that value is truthy (a
falsy parsed body instead yields the failure marker, see C9); if every
attempt fails the loop returns the failure marker as a normal value. -/
theorem c3_submission (email secret url : String) (answer : JsValue)
    (originUrl submitUrl : String) :
    ((buildAttempts email secret url answer originUrl submitUrl).map
        (fun a => (a.url, a.method))
      = [(originUrl ++ "/submit", "POST"), (originUrl ++ "/submit", "POST"),
         (submitUrl, "POST"), (submitUrl, "POST"), (submitUrl, "POST"),
         (submitUrl ++ (if containsSubL ['?'] submitUrl.data then "&" else "?")
           ++ "answer=" ++ encodeURIComponent (jsToString answer)
           ++ "&email=" ++ encodeURIComponent email
           ++ "&secret=" ++ encodeURIComponent secret, "GET")])
    ∧ ((buildAttempts email secret url answer originUrl submitUrl).map
        (fun a => a.contentType)
      = [some "application/json", some "application/x-www-form-urlencoded",
         some "application/json", some "application/x-www-form-urlencoded",
         some "text/plain", none])
    ∧ (∀ (pre rest : List AttemptResponse) (st : Nat) (raw : String),
        (∀ r ∈ pre, respOk r = false) → pre.length < 6 → 200 ≤ st → st < 300 →
        jsTruthy (finalVal raw) = true →
        submitLoop (buildAttempts email secret url answer originUrl submitUrl)
            (pre ++ some (st, raw) :: rest)
          = (finalVal raw, pre.length + 1))
    ∧ (∀ resps : List AttemptResponse, (∀ r ∈ resps, respOk r = false) →
        (submitLoop (buildAttempts email secret url answer originUrl submitUrl) resps).1
          = failureMarker) := by
  refine ⟨rfl, rfl, ?_, ?_⟩
  · intro pre rest st raw hfail hlen h200 h300 htru
    have hats : (buildAttempts email secret url answer originUrl submitUrl).length = 6 := rfl
    have hgo := submitGo_first_ok st raw h200 h300 pre
      (buildAttempts email secret url answer originUrl submitUrl) rest 0 hfail
      (by rw [hats]; exact hlen)
    unfold submitLoop
    rw [hgo]
    simp [htru]
  · intro resps hfail
    have hgo := submitGo_all_fail
      (buildAttempts email secret url answer originUrl submitUrl) resps 0 hfail
    unfold submitLoop
    cases hgo2 : submitGo (buildAttempts email secret url answer originUrl submitUrl)
        resps 0 with
    | mk o n =>
      rw [hgo2] at hgo
      simp only at hgo
      subst hgo
      rfl

/-- C3 witness: first two attempts fail with non-2xx statuses, the
third returns 200; the result is the third attempt's JSON-parsed body
and exactly three attempts were made. -/
theorem c3_submission_witness :
    submitLoop (buildAttempts "e@x" "s3cr3t" "https://h/q" (.str "42") "https://h" "https://h/q")
        [some (404, "no"), some (500, "err"), some (200, "\x7b\"correct\":true\x7d")]
      = (JsValue.obj [("correct", JsValue.bool true)], 3) :=
  (c3_submission "e@x" "s3cr3t" "https://h/q" (.str "42") "https://h" "https://h/q").2.2.1
    [some (404, "no"), some (500, "err")] [] 200 "\x7b\"correct\":true\x7d"
    (by decide) (by decide) (by decide) (by decide) (by decide)

/-- C9 counterexample: a 2xx body `"null"` parses to JSON `null`
(falsy), yet the returned value is the raw text `"null"` — not the
failure marker — because `parsedResp ?? rawText` substitutes the raw
text when the parse result is `null`, and the raw text is truthy. -/
theorem c9_falsy_reply_cex :
    jsonParse "null" = some JsValue.null
    ∧ jsTruthy JsValue.null = false
    ∧ submitLoop (buildAttempts "e@x" "s" "https://h/q" (.str "42") "https://h" "https://h/q")
        [some (200, "null")] = (JsValue.str "null", 1)
    ∧ JsValue.str "null" ≠ failureMarker :=
  ⟨rfl, rfl, rfl, fun h => JsValue.noConfusion h⟩

/-- C9 (amended): when the first 2xx attempt's body is empty or parses
to a falsy value other than `null` (such as `0` or `false`), the loop
stops and the failure marker is returned; but a body parsing to JSON
`null` is replaced by the raw body text, which is truthy and is
returned instead of the marker. -/
theorem c9_falsy_reply (email secret url : String) (answer : JsValue)
    (originUrl submitUrl : String) :
    ∀ (pre rest : List AttemptResponse) (st : Nat) (raw : String),
      (∀ r ∈ pre, respOk r = false) → pre.length < 6 → 200 ≤ st → st < 300 →
      (raw = "" →
        submitLoop (buildAttempts email secret url answer originUrl submitUrl)
            (pre ++ some (st, raw) :: rest)
          = (failureMarker, pre.length + 1))
      ∧ (∀ v : JsValue, jsonParse raw = some v → jsTruthy v = false → v ≠ JsValue.null →
          submitLoop (buildAttempts email secret url answer originUrl submitUrl)
              (pre ++ some (st, raw) :: rest)
            = (failureMarker, pre.length + 1))
      ∧ (jsonParse raw = some JsValue.null →
          submitLoop (buildAttempts email secret url answer originUrl submitUrl)
              (pre ++ some (st, raw) :: rest)
            = (JsValue.str raw, pre.length + 1)) := by
  intro pre rest st raw hfail hlen h200 h300
  have hats : (buildAttempts email secret url answer originUrl submitUrl).length = 6 := rfl
  have hgo := submitGo_first_ok st raw h200 h300 pre
    (buildAttempts email secret url answer originUrl submitUrl) rest 0 hfail
    (by rw [hats]; exact hlen)
  refine ⟨?_, ?_, ?_⟩
  · intro hraw
    subst hraw
    unfold submitLoop
    rw [hgo]
    simp [show jsTruthy (finalVal "") = false from rfl]
  · intro v hp htru hnn
    have hfv : finalVal raw = v := by
      unfold finalVal
      rw [hp]
      cases v with
      | null => exact absurd rfl hnn
      | bool b => rfl
      | num q => rfl
      | str s => rfl
      | arr xs => rfl
      | obj kvs => rfl
    unfold submitLoop
    rw [hgo, hfv]
    simp [htru]
  · intro hp
    have hraw : raw ≠ "" := by
      intro he
      rw [he] at hp
      exact Option.noConfusion hp
    have hfv : finalVal raw = JsValue.str raw := by
      unfold finalVal
      rw [hp]
    have htru : jsTruthy (JsValue.str raw) = true := by
      obtain ⟨rd⟩ := raw
      cases rd with
      | nil => exact absurd rfl hraw
      | cons c cs => rfl
    unfold submitLoop
    rw [hgo, hfv]
    simp [htru]

/-- C9 witness: a network error followed by a 200 response whose body is
`false` yields the failure marker after two attempts. -/
theorem c9_falsy_reply_witness :
    submitLoop (buildAttempts "e@x" "s" "https://h/q" (.str "7") "https://h" "https://h/q")
        [none, some (200, "false")] = (failureMarker, 2) :=
  ((c9_falsy_reply "e@x" "s" "https://h/q" (.str "7") "https://h" "https://h/q"
      [none] [] 200 "false" (by decide) (by decide) (by decide) (by decide)).2.1
    (JsValue.bool false) rfl rfl (fun h => JsValue.noConfusion h))

/-! ## `utils/fetcher.js`: HTML asset-URL extraction heuristics -/

def idxOfFrom (ch : Char) (l : List Char) (start : Nat) : Option Nat :=
  (List.range l.length).find? (fun i => decide (start ≤ i) && (l.getD i ' ' == ch))

def lastIdxOf (ch : Char) (l : List Char) : Option Nat :=
  ((List.range l.length).filter (fun i => l.getD i ' ' == ch)).getLast?

/-- Property lookup on a parsed JSON object; with duplicate keys the
last binding wins, as in `JSON.parse`. -/
def objGet (v : JsValue) (k : String) : Option JsValue :=
  match v with
  | .obj kvs => (kvs.reverse.find? (fun kv => kv.1 == k)).map (fun kv => kv.2)
  | _ => none

def blobKeys : List String := ["url", "audio_url", "file", "src", "source", "download"]

/-- First key whose value is a string starting with `http`. -/
def blobDirectGo : List String → JsValue → Option String
  | [], _ => none
  | k :: ks, v =>
    match objGet v k with
    | some (.str s) =>
      if startsWithL s.data ("http".data) then some s else blobDirectGo ks v
    | _ => blobDirectGo ks v

/-- Match, at one position of the stringified JSON, the pattern
quoted-key, optional whitespace, colon, optional whitespace, then a
quoted non-empty capture (the fetcher's per-key regex, which is
case-insensitive). -/
def flatKeyMatchAt (flat : List Char) (k : List Char) (i : Nat) : Option (List Char) :=
  let sub := flat.drop i
  if !startsWithL (lowerL sub) (lowerL ('"' :: k ++ ['"'])) then none
  else
    let r2 := (sub.drop (k.length + 2)).dropWhile isWsChar
    match r2 with
    | ':' :: r3 =>
      match r3.dropWhile isWsChar with
      | '"' :: r5 =>
        let cap := r5.takeWhile (fun c => !(c == '"'))
        if cap.isEmpty then none
        else if (r5.drop cap.length).head? == some '"' then some cap else none
      | _ => none
    | _ => none

def flatKeySearch (flat : List Char) (k : List Char) : Option (List Char) :=
  ((List.range flat.length).find? (fun i => (flatKeyMatchAt flat k i).isSome)).bind
    (flatKeyMatchAt flat k)

def blobFlatGo : List String → List Char → Option String
  | [], _ => none
  | k :: ks, flat =>
    match flatKeySearch flat k.data with
    | some cap => some ⟨cap⟩
    | none => blobFlatGo ks flat

/-- The candidate loop of `tryExtractUrlFromJsonBlob`: candidates run
from each successive `{` to the last `}` of the page; a parsed candidate
is searched for url-like keys directly and then in its re-stringified
form. -/
def tebGo (html : List Char) (endIdx : Option Nat) : Nat → Option Nat → Option String
  | 0, _ => none
  | _ + 1, none => none
  | f + 1, some s =>
    match endIdx with
    | none => none
    | some e =>
      if e ≤ s then none
      else
        let cand : List Char := (html.drop s).take (e + 1 - s)
        match jsonParse ⟨cand⟩ with
        | some v =>
          match blobDirectGo blobKeys v with
          | some u => some u
          | none =>
            match blobFlatGo blobKeys (stringifyL v) with
            | some u => some u
            | none => tebGo html endIdx f (idxOfFrom '{' html (s + 1))
        | none => tebGo html endIdx f (idxOfFrom '{' html (s + 1))

def tryExtractUrlFromJsonBlob (html : List Char) : Option String :=
  tebGo html (lastIdxOf '}' html) (html.length + 1) (idxOfFrom '{' html 0)

/-- A quoted capture at position `q`: a quote character, one or more
non-quote characters, a closing quote; returns the capture and the
position after the closing quote. -/
def quoteCaptureAt (h : List Char) (q : Nat) : Option (List Char × Nat) :=
  match (h.drop q).head? with
  | none => none
  | some c =>
    if c == '"' || c == '\'' then
      let cap := (h.drop (q + 1)).takeWhile (fun d => !(d == '"' || d == '\''))
      if cap.isEmpty then none
      else
        match (h.drop (q + 1 + cap.length)).head? with
        | some c2 =>
          if c2 == '"' || c2 == '\'' then some (cap, q + 1 + cap.length + 1) else none
        | none => none
    else none

/-- Match of the audio/source-tag regex anchored at `p`: an `<audio` or
`<source` opener, a non-empty greedy run of non-`>` characters (largest
split wins, as with a backtracking greedy quantifier), `src=`, and a
quoted capture; case-insensitive.  Returns the capture and the match
end. -/
def audioTagMatchAt (h : List Char) (p : Nat) : Option (List Char × Nat) :=
  let tagLen : Option Nat :=
    if startsWithL (lowerL (h.drop p)) ("<audio".data) then some 6
    else if startsWithL (lowerL (h.drop p)) ("<source".data) then some 7
    else none
  match tagLen with
  | none => none
  | some tl =>
    let gapStart := p + tl
    let valid := fun (j : Nat) =>
      decide (gapStart + 1 ≤ j)
        && ((h.drop gapStart).take (j - gapStart)).all (fun c => !(c == '>'))
        && startsWithL (lowerL (h.drop j)) ("src=".data)
        && (quoteCaptureAt h (j + 4)).isSome
    match ((List.range (h.length + 1)).filter valid).getLast? with
    | none => none
    | some j => quoteCaptureAt h (j + 4)

def audioTagFind (h : List Char) (pos : Nat) : Option (List Char × Nat) :=
  ((List.range h.length).find?
      (fun p => decide (pos ≤ p) && (audioTagMatchAt h p).isSome)).bind
    (audioTagMatchAt h)

/-- The `exec` loop over audio/source tags: an `http`-prefixed capture
is returned as is; otherwise it is resolved against the current URL,
and a resolution failure moves on to the next match. -/
def tryExtractFromAudioTagsGo (h : List Char) (cur : String) : Nat → Nat → Option String
  | 0, _ => none
  | f + 1, pos =>
    match audioTagFind h pos with
    | none => none
    | some capEnd =>
      if startsWithL capEnd.1 ("http".data) then some ⟨capEnd.1⟩
      else
        match resolveUrl ⟨capEnd.1⟩ cur with
        | some r => some r
        | none => tryExtractFromAudioTagsGo h cur f capEnd.2

def tryExtractFromAudioTags (h : List Char) (cur : String) : Option String :=
  tryExtractFromAudioTagsGo h cur (h.length + 1) 0

def ogAlternatives : List (List Char) :=
  ["og:audio".data, "og:video:secure_url".data, "og:audio:secure_url".data,
   "og:video".data]

/-- The Open Graph alternatives of the meta regex, tried in source
order with their continuation (closing quote, whitespace, quoted
`content=` capture). -/
def metaAltGo (h : List Char) (pos : Nat) : List (List Char) → Option (List Char)
  | [] => none
  | alt :: alts =>
    let tryNext := fun (_ : Unit) => metaAltGo h pos alts
    if startsWithL (lowerL (h.drop pos)) (lowerL alt) then
      let p2 := pos + alt.length
      match (h.drop p2).head? with
      | some qc =>
        if qc == '"' || qc == '\'' then
          let ws := (h.drop (p2 + 1)).takeWhile isWsChar
          if ws.isEmpty then tryNext ()
          else
            let p4 := p2 + 1 + ws.length
            if startsWithL (lowerL (h.drop p4)) ("content=".data) then
              match quoteCaptureAt h (p4 + 8) with
              | some pr => some pr.1
              | none => tryNext ()
            else tryNext ()
        else tryNext ()
      | none => tryNext ()
    else tryNext ()

/-- Match of the meta-tag regex anchored at `p`: `<meta`, a non-empty
greedy run of non-`>` characters, `property=`, a quote, one of the
Open Graph property names, and the `content=` capture. -/
def metaPropMatchAt (h : List Char) (j : Nat) : Option (List Char) :=
  if !startsWithL (lowerL (h.drop j)) ("property=".data) then none
  else
    match (h.drop (j + 9)).head? with
    | none => none
    | some qc =>
      if qc == '"' || qc == '\'' then metaAltGo h (j + 10) ogAlternatives
      else none

def metaTagMatchAt (h : List Char) (p : Nat) : Option (List Char) :=
  if !startsWithL (lowerL (h.drop p)) ("<meta".data) then none
  else
    let gapStart := p + 5
    let valid := fun (j : Nat) =>
      decide (gapStart + 1 ≤ j)
        && ((h.drop gapStart).take (j - gapStart)).all (fun c => !(c == '>'))
        && (metaPropMatchAt h j).isSome
    match ((List.range (h.length + 1)).filter valid).getLast? with
    | none => none
    | some j => metaPropMatchAt h j

def tryExtractFromMeta (h : List Char) (cur : String) : Option String :=
  ((((List.range h.length).find? (fun p => (metaTagMatchAt h p).isSome)).bind
      (metaTagMatchAt h)).map
    (fun cap => (resolveUrl ⟨cap⟩ cur).getD ⟨cap⟩))

/-- The layered extraction of `downloadToBuffer` on an HTML response:
JSON blob, then audio/source tags, then Open Graph meta tags. -/
def extractedAssetUrl (html : List Char) (cur : String) : Option String :=
  match tryExtractUrlFromJsonBlob html with
  | some u => some u
  | none =>
    match tryExtractFromAudioTags html cur with
    | some u => some u
    | none => tryExtractFromMeta html cur

/-! ## `utils/fetcher.js`: the download loop -/

/-- One network response: a thrown network error (timeouts included) or
an HTTP response with status, content type, and body bytes (modelled as
a string). -/
inductive NetResult where
  | err (msg : String)
  | resp (status : Nat) (ctype : Option String) (body : String)

abbrev ReqLog := List (String × String)

/-- Consume the next pending response, logging the request that was
issued; an exhausted response list models a network failure. -/
def netFetch (u m : String) : List NetResult → NetResult × List NetResult × ReqLog
  | [] => (.err "no response", [], [(u, m)])
  | r :: rest => (r, rest, [(u, m)])

def okStatus (st : Nat) : Bool := 200 ≤ st && st < 300

def ctypeIsHtml : Option String → Bool
  | none => false
  | some s => containsSubL ("text/html".data) (lowerL s.data)

def htmlNoAssetMsg (debug : Bool) (html : String) : String :=
  "Downloaded HTML but could not find a direct asset URL. "
    ++ "This usually means your scraper extracted a page rather than a file. "
    ++ "HTML snippet: " ++ (if debug then (⟨html.data.take 1600⟩ : String) else "")

def statusFailMsg (debug : Bool) (st : Nat) (body : String) : String :=
  if st == 401 || st == 403 then
    "Download failed: " ++ (⟨natDigitsStr st⟩ : String)
      ++ ". The resource may be protected (requires cookies/headers/auth). "
      ++ (if debug then (⟨body.data.take 1000⟩ : String) else "")
  else
    "Download failed: " ++ (⟨natDigitsStr st⟩ : String) ++ ". "
      ++ (if debug then (⟨body.data.take 1000⟩ : String) else "")

/-- The part of one attempt after the (possibly 405-retried) response is
in hand: status check, HTML unwrapping with a single follow-up GET, or
the raw bytes. -/
def afterStatus (u : String) (debug : Bool) (st : Nat) (ct : Option String) (body : String)
    (rs : List NetResult) : Except String String × List NetResult × ReqLog :=
  if !okStatus st then (.error (statusFailMsg debug st body), rs, [])
  else if ctypeIsHtml ct then
    match extractedAssetUrl body.data u with
    | some e =>
      let e2 := (resolveUrl e u).getD e
      match netFetch e2 "GET" rs with
      | (.err msg, rs2, g2) =>
        (.error ("Network error fetching " ++ e2 ++ ": " ++ msg), rs2, g2)
      | (.resp st3 _ b3, rs2, g2) =>
        if okStatus st3 then (.ok b3, rs2, g2)
        else
          (.error ("Failed to fetch extracted asset URL (" ++ (⟨natDigitsStr st3⟩ : String)
              ++ "). " ++ (if debug then (⟨b3.data.take 1000⟩ : String) else "")),
            rs2, g2)
    | none => (.error (htmlNoAssetMsg debug body), rs, [])
  else (.ok body, rs, [])

/-- One attempt of `downloadToBuffer`: fetch, retry once as GET on a 405
to a non-GET request, then dispatch on the final response. -/
def downloadAttempt (u m : String) (debug : Bool) (rs : List NetResult) :
    Except String String × List NetResult × ReqLog :=
  match netFetch u m rs with
  | (.err msg, rs1, g1) =>
    (.error ("Network error fetching " ++ u ++ ": " ++ msg), rs1, g1)
  | (.resp st ct body, rs1, g1) =>
    if st == 405 && !(m == "GET") then
      match netFetch u "GET" rs1 with
      | (.err msg, rs2, g2) =>
        (.error ("Network error fetching " ++ u ++ ": " ++ msg), rs2, g1 ++ g2)
      | (.resp st2 ct2 b2, rs2, g2) =>
        let r := afterStatus u debug st2 ct2 b2 rs2
        (r.1, r.2.1, g1 ++ g2 ++ r.2.2)
    else
      let r := afterStatus u debug st ct body rs1
      (r.1, r.2.1, g1 ++ r.2.2)

/-- The retry loop of `downloadToBuffer` (`retries` total attempts;
backoff delays are not observable in the model; zero retries falls
through to the final `Unknown error`). -/
def downloadToBufferGo (u m : String) (debug : Bool) :
    Nat → List NetResult → Except String String × List NetResult × ReqLog
  | 0, rs => (.error "Unknown error in downloadToBuffer", rs, [])
  | n + 1, rs =>
    match downloadAttempt u m debug rs with
    | (.ok b, rs1, g1) => (.ok b, rs1, g1)
    | (.error e, rs1, g1) =>
      if n = 0 then (.error e, rs1, g1)
      else
        let r := downloadToBufferGo u m debug n rs1
        (r.1, r.2.1, g1 ++ r.2.2)

/-- Model of `downloadToBuffer(url, method, opts)` against a pending
response list (headers, timeouts and backoff delays do not affect the
modelled observable behaviour). -/
def downloadToBuffer (u : String) (m : String) (retries : Nat) (debug : Bool)
    (rs : List NetResult) : Except String String × List NetResult × ReqLog :=
  downloadToBufferGo u m debug retries rs

/-! ### Lemmas about the download loop -/

theorem downloadAttempt_405 (u m : String) (debug : Bool) (ct0 : Option String)
    (b0 : String) (rs : List NetResult) (hm : (m == "GET") = false) :
    ∃ t, (downloadAttempt u m debug (.resp 405 ct0 b0 :: rs)).2.2
      = (u, m) :: (u, "GET") :: t := by
  cases rs with
  | nil =>
    refine ⟨[], ?_⟩
    simp [downloadAttempt, netFetch, hm]
  | cons r rs2 =>
    cases r with
    | err msg =>
      refine ⟨[], ?_⟩
      simp [downloadAttempt, netFetch, hm]
    | resp st2 ct2 b2 =>
      refine ⟨(afterStatus u debug st2 ct2 b2 rs2).2.2, ?_⟩
      simp [downloadAttempt, netFetch, hm]

theorem downloadToBufferGo_405 (u m : String) (debug : Bool) (ct0 : Option String)
    (b0 : String) (r2 : NetResult) (rest : List NetResult) :
    ∀ retries : Nat, 1 ≤ retries → (m == "GET") = false →
    ∃ t, (downloadToBufferGo u m debug retries (.resp 405 ct0 b0 :: r2 :: rest)).2.2
      = (u, m) :: (u, "GET") :: t := by
  intro retries hret hm
  cases retries with
  | zero => omega
  | succ n =>
    obtain ⟨t1, ht1⟩ := downloadAttempt_405 u m debug ct0 b0 (r2 :: rest) hm
    rcases hatt : downloadAttempt u m debug (.resp 405 ct0 b0 :: r2 :: rest)
      with ⟨res, rs1, g1⟩
    rw [hatt] at ht1
    simp only at ht1
    cases res with
    | ok b =>
      refine ⟨t1, ?_⟩
      simp [downloadToBufferGo, hatt, ht1]
    | error e =>
      by_cases hn : n = 0
      · subst hn
        refine ⟨t1, ?_⟩
        simp [downloadToBufferGo, hatt, ht1]
      · refine ⟨t1 ++ (downloadToBufferGo u m debug n rs1).2.2, ?_⟩
        simp [downloadToBufferGo, hatt, ht1, hn]

/-! ## Claim theorems: the asset resolver -/

/-- C7 counterexample: after the 405→GET retry, a 200 response whose
content type is HTML does not give the GET response's bytes: it goes
through asset extraction, here failing with the page-instead-of-file
error. -/
theorem c7_405_retry_cex :
    downloadToBufferGo "https://a/f" "POST" false 1
        [.resp 405 none "", .resp 200 (some "text/html") "<p>nope</p>"]
      = (.error (htmlNoAssetMsg false "<p>nope</p>"), [],
         [("https://a/f", "POST"), ("https://a/f", "GET")])
    ∧ (Except.error (htmlNoAssetMsg false "<p>nope</p>") : Except String String)
        ≠ .ok "<p>nope</p>" :=
  ⟨rfl, fun h => Except.noConfusion h⟩

/-- C7 (amended): a non-GET request answered 405 is retried exactly once
as a GET on the same URL within the same attempt — the next request in
the log is always `(url, GET)` whatever the outcome; and when that GET
returns 200 with a non-HTML content type, the download succeeds with the
GET response's bytes (a 200 HTML response instead enters asset
extraction, see the counterexample). -/
theorem c7_405_retry :
    (∀ (u m : String) (debug : Bool) (ct0 : Option String) (b0 : String)
        (r2 : NetResult) (rest : List NetResult) (retries : Nat),
      1 ≤ retries → (m == "GET") = false →
      ∃ t, (downloadToBufferGo u m debug retries (.resp 405 ct0 b0 :: r2 :: rest)).2.2
        = (u, m) :: (u, "GET") :: t)
    ∧ (∀ (u m : String) (debug : Bool) (ct0 : Option String) (b0 : String)
        (ct2 : Option String) (b2 : String) (rest : List NetResult) (retries : Nat),
      1 ≤ retries → (m == "GET") = false → ctypeIsHtml ct2 = false →
      downloadToBufferGo u m debug retries
          (.resp 405 ct0 b0 :: .resp 200 ct2 b2 :: rest)
        = (.ok b2, rest, [(u, m), (u, "GET")])) := by
  constructor
  · intro u m debug ct0 b0 r2 rest retries hret hm
    exact downloadToBufferGo_405 u m debug ct0 b0 r2 rest retries hret hm
  · intro u m debug ct0 b0 ct2 b2 rest retries hret hm hct
    cases retries with
    | zero => omega
    | succ n =>
      have hatt : downloadAttempt u m debug (.resp 405 ct0 b0 :: .resp 200 ct2 b2 :: rest)
          = (.ok b2, rest, [(u, m), (u, "GET")]) := by
        simp [downloadAttempt, netFetch, hm, afterStatus, hct, okStatus]
      simp [downloadToBufferGo, hatt]

/-- C7 witness: a POST answered 405, retried as GET and answered 200
with PDF bytes, succeeds with those bytes after exactly the two logged
requests. -/
theorem c7_405_retry_witness :
    downloadToBufferGo "https://a/f" "POST" false 2
        [.resp 405 none "", .resp 200 (some "application/pdf") "DATA"]
      = (.ok "DATA", [], [("https://a/f", "POST"), ("https://a/f", "GET")]) :=
  c7_405_retry.2 "https://a/f" "POST" false none "" (some "application/pdf") "DATA" [] 2
    (by decide) (by decide) (by decide)

/-- C8: on a successful HTML response the resolver scans for an asset
URL with the JSON blob heuristic first, then audio/source tags, then
Open Graph meta tags; the extracted URL is resolved against the
currently requested URL and fetched by a single follow-up GET whose
bytes become the result (whatever that follow-up's content type); and
when no asset URL is found the attempt fails with the
page-instead-of-file error. -/
theorem c8_html_unwrap :
    (∀ (html : List Char) (cur : String) (u0 : String),
        tryExtractUrlFromJsonBlob html = some u0 →
        extractedAssetUrl html cur = some u0)
    ∧ (∀ (html : List Char) (cur : String) (u0 : String),
        tryExtractUrlFromJsonBlob html = none →
        tryExtractFromAudioTags html cur = some u0 →
        extractedAssetUrl html cur = some u0)
    ∧ (∀ (html : List Char) (cur : String),
        tryExtractUrlFromJsonBlob html = none →
        tryExtractFromAudioTags html cur = none →
        extractedAssetUrl html cur = tryExtractFromMeta html cur)
    ∧ (∀ (u : String) (debug : Bool) (st : Nat) (ct : Option String) (body : String)
        (e e2 : String) (st3 : Nat) (ct3 : Option String) (b3 : String)
        (rest : List NetResult) (retries : Nat),
      1 ≤ retries → okStatus st = true → ctypeIsHtml ct = true →
      extractedAssetUrl body.data u = some e → (resolveUrl e u).getD e = e2 →
      okStatus st3 = true →
      downloadToBufferGo u "GET" debug retries
          (.resp st ct body :: .resp st3 ct3 b3 :: rest)
        = (.ok b3, rest, [(u, "GET"), (e2, "GET")]))
    ∧ (∀ (u m : String) (debug : Bool) (st : Nat) (ct : Option String) (body : String)
        (rest : List NetResult),
      okStatus st = true → ctypeIsHtml ct = true →
      extractedAssetUrl body.data u = none →
      downloadAttempt u m debug (.resp st ct body :: rest)
        = (.error (htmlNoAssetMsg debug body), rest, [(u, m)])) := by
  refine ⟨?_, ?_, ?_, ?_, ?_⟩
  · intro html cur u0 h
    unfold extractedAssetUrl
    rw [h]
  · intro html cur u0 h1 h2
    unfold extractedAssetUrl
    rw [h1, h2]
  · intro html cur h1 h2
    unfold extractedAssetUrl
    rw [h1, h2]
  · intro u debug st ct body e e2 st3 ct3 b3 rest retries hret hok hct hext he2 hok3
    cases retries with
    | zero => omega
    | succ n =>
      have h405 : (st == 405) = false := by
        simp only [okStatus, Bool.and_eq_true, decide_eq_true_eq] at hok
        simp only [beq_eq_false_iff_ne, ne_eq]
        omega
      have hatt : downloadAttempt u "GET" debug
          (.resp st ct body :: .resp st3 ct3 b3 :: rest)
          = (.ok b3, rest, [(u, "GET"), (e2, "GET")]) := by
        simp [downloadAttempt, netFetch, h405, afterStatus, hok, hct, hext, he2, hok3]
      simp [downloadToBufferGo, hatt]
  · intro u m debug st ct body rest hok hct hext
    have h405 : (st == 405) = false := by
      simp only [okStatus, Bool.and_eq_true, decide_eq_true_eq] at hok
      simp only [beq_eq_false_iff_ne, ne_eq]
      omega
    simp [downloadAttempt, netFetch, h405, afterStatus, hok, hct, hext]

/-- C8 witness: an HTML page with a relative `<audio src="track.opus">`
resolves against the request URL and the follow-up GET's bytes become
the result. -/
theorem c8_html_unwrap_witness :
    downloadToBufferGo "https://host/page/quiz" "GET" false 2
        [.resp 200 (some "text/html; charset=utf-8")
           "<html><audio src=\"track.opus\"></html>",
         .resp 200 (some "audio/ogg") "AUDIOBYTES"]
      = (.ok "AUDIOBYTES", [],
         [("https://host/page/quiz", "GET"), ("https://host/page/track.opus", "GET")]) :=
  c8_html_unwrap.2.2.2.1 "https://host/page/quiz" false 200
    (some "text/html; charset=utf-8") "<html><audio src=\"track.opus\"></html>"
    "https://host/page/track.opus" "https://host/page/track.opus"
    200 (some "audio/ogg") "AUDIOBYTES" [] 2
    (by decide) (by decide) (by decide) (by decide) (by decide) (by decide)

end Quiz
